import Mathlib

/-!
Shallow embedding of `src/contracts/eosio.system/voting.cpp` (namespace
`eosiosystem`), the stake-weighted producer-election core.

Modelling conventions:
* `double` values (vote weights, `proxied_vote_weight`, `total_votes`) and
  `int64_t` stake amounts are idealised as real numbers `ℝ`; IEEE-754
  rounding, NaN propagation and int/double conversion truncation are not
  modelled.  Comparisons on reals make the transition functions
  noncomputable; concrete runs are evaluated by `simp`/`norm_num`.
* `account_name` (`uint64_t`) is `Nat`; the code treats `0` as "no account"
  (`if (proxy)`), so `proxy = 0` means "no proxy".
* The multi-index tables `_voters` / `_producers` are association lists keyed
  by `owner`; `find` is the first matching record, `modify` rewrites the
  matching record in place.
* `eosio_assert(cond, msg)` aborts the whole transaction; it is modelled as
  `Except.error msg`, and the transactional wrapper (`voteproducerTx`)
  restores the pre-state on any error, which is exactly the chain's
  rollback semantics.  Dereferencing the `end()` iterator returned by a
  failed `find` (which the source does in two places) is undefined
  behaviour in C++; it is modelled as a distinguished `Except.error`
  beginning with `UB:`.
* `propagate_weight_change` recurses on the delegate with no bound in the
  source; the embedding adds an explicit `fuel` argument, `fuel = 0`
  yielding the distinguished error `"out of fuel"`, so that divergence of
  the source recursion shows up as fuel exhaustion at every depth.
* External collaborators are parameters: `require_auth` / `require_recipient`
  are assumed granted / fire-and-forget, `current_time()` is the parameter
  `now`, the header constant `min_activated_stake` is the parameter
  `threshold`, and `set_proposed_producers` is the Boolean parameter
  `accept` of `update_elected_producers`.
-/

open Classical

/-- Modelled from the spec (§3 Voter): one row of the `_voters` table.  The
field types follow the spec's data model since the table declaration lives
in the missing header `eosio.system.hpp`; `voting.cpp` reads and writes
exactly these fields. -/
structure VoterInfo where
  owner : Nat
  staked : ℝ
  proxy : Nat
  is_proxy : Bool
  last_vote_weight : ℝ
  proxied_vote_weight : ℝ
  producers : List Nat

/-- Modelled from the spec (§3 Producer): one row of the `_producers` table.
`producer_key = 0` stands for the default-constructed public key; metadata
(`url`, `location`) carries no algorithmic content and is omitted.
`active()` and `isActive()` in the source both test `is_active`. -/
structure ProducerInfo where
  owner : Nat
  total_votes : ℝ
  producer_key : Nat
  is_active : Bool

/-- Modelled from the spec (§3 GlobalElectionState): the singleton
`_gstate`. -/
structure EosioGlobalState where
  total_activated_stake : ℝ
  thresh_activated_stake_time : Nat
  total_producer_vote_weight : ℝ
  last_producer_schedule_update : Nat
  last_producer_schedule_size : Nat

/-- The whole contract state touched by `voting.cpp`. -/
structure SysState where
  voters : List VoterInfo
  producers : List ProducerInfo
  gstate : EosioGlobalState

/-- `_voters.find(n)`: first record with the given owner. -/
def findVoter (vs : List VoterInfo) (n : Nat) : Option VoterInfo :=
  vs.find? (fun v => v.owner == n)

/-- `_voters.modify(itr, ...)`: rewrite the record with the given owner. -/
def setVoter (vs : List VoterInfo) (n : Nat) (f : VoterInfo → VoterInfo) :
    List VoterInfo :=
  vs.map (fun v => if v.owner == n then f v else v)

/-- `_producers.find(n)`. -/
def findProducer (ps : List ProducerInfo) (n : Nat) : Option ProducerInfo :=
  ps.find? (fun p => p.owner == n)

/-- `_producers.modify(itr, ...)`. -/
def setProducer (ps : List ProducerInfo) (n : Nat) (f : ProducerInfo → ProducerInfo) :
    List ProducerInfo :=
  ps.map (fun p => if p.owner == n then f p else p)

/-- `#define VOTE_VARIATION 0.1`. -/
def VOTE_VARIATION : ℝ := 0.1

/-- `M_PI_2` from `<cmath>`. -/
noncomputable def M_PI_2 : ℝ := Real.pi / 2

/-- `system_contract::inverseVoteWeight` (voting.cpp lines 110-124).  Note
that `totalProducers` is `std::distance(_producers.begin(), _producers.end())`,
i.e. the number of *registered* producers regardless of `is_active`,
then capped at 30. -/
noncomputable def inverseVoteWeight (st : SysState) (staked : ℝ)
    (amountVotedProducers : ℝ) (variation : ℝ) : ℝ :=
  if amountVotedProducers = 0 then 0
  else
    let totalProducers : ℝ := (st.producers.length : ℝ)
    let totalProducers : ℝ := if 30 < totalProducers then 30 else totalProducers
    let k := 1 - variation
    (k * Real.sin (M_PI_2 * (amountVotedProducers / totalProducers)) + variation) * staked

/-- `system_contract::checkNetworkActivation` (voting.cpp lines 147-151).
`threshold` is the header constant `min_activated_stake`, `now` is
`current_time()`. -/
noncomputable def checkNetworkActivation (threshold : ℝ) (now : Nat)
    (st : SysState) : SysState :=
  if threshold ≤ st.gstate.total_activated_stake ∧
      st.gstate.thresh_activated_stake_time = 0 then
    { st with gstate := { st.gstate with thresh_activated_stake_time := now } }
  else st

/-- Modelled from the spec (§6 storage collaborator): iteration over the
`prototalvote` secondary index, ordered by `total_votes` descending, ties
by producer identity.  Insertion step. -/
noncomputable def insertByVotes (p : ProducerInfo) :
    List ProducerInfo → List ProducerInfo
  | [] => [p]
  | q :: r =>
    if q.total_votes < p.total_votes ∨
        (p.total_votes = q.total_votes ∧ p.owner ≤ q.owner) then
      p :: q :: r
    else q :: insertByVotes p r

/-- Modelled from the spec (§6 storage collaborator): the producer table in
`total_votes`-descending iteration order. -/
noncomputable def sortByVotesDesc (l : List ProducerInfo) : List ProducerInfo :=
  l.foldr insertByVotes []

/-- The collection loop of `update_elected_producers` (voting.cpp line 82):
`for (it = begin; it != end && top.size() < 21 && 0 < it->total_votes &&
it->active(); ++it) top.emplace_back(...)`.  Note the qualification tests
are part of the loop condition: a failing entry stops the loop. -/
noncomputable def top_producers_loop :
    List ProducerInfo → List Nat → List Nat
  | [], acc => acc
  | p :: rest, acc =>
    if acc.length < 21 ∧ 0 < p.total_votes ∧ p.is_active = true then
      top_producers_loop rest (acc ++ [p.owner])
    else acc

/-- The `top_producers` vector collected by `update_elected_producers`
(identified by owner; the key/location payload carries no logic). -/
noncomputable def topProducers (st : SysState) : List Nat :=
  top_producers_loop (sortByVotesDesc st.producers) []

/-- `system_contract::update_elected_producers` (voting.cpp lines 74-104).
`accept` is the result of the external `set_proposed_producers` call
(`>= 0` means accepted); serialization of the sorted slate is external and
does not touch contract state. -/
noncomputable def update_elected_producers (accept : Bool) (block_time : Nat)
    (st : SysState) : SysState :=
  let st1 : SysState :=
    { st with gstate := { st.gstate with last_producer_schedule_update := block_time } }
  let top := topProducers st1
  if top.length < st1.gstate.last_producer_schedule_size then st1
  else if accept then
    { st1 with gstate := { st1.gstate with last_producer_schedule_size := top.length } }
  else st1

/-- Modelled from the spec (§4.4): the qualification test
`total_votes > 0 && is_active` on a producer row. -/
def qualifies (p : ProducerInfo) : Prop :=
  0 < p.total_votes ∧ p.is_active = true

/-- Modelled from the spec (§4.4): the longest all-qualifying prefix of a
producer list — what the collection loop actually gathers. -/
noncomputable def qualTakeWhile : List ProducerInfo → List ProducerInfo
  | [] => []
  | p :: r => if 0 < p.total_votes ∧ p.is_active = true then p :: qualTakeWhile r else []

/-- Modelled from the spec (§4.1 VoteWeightModel): the weight formula as the
spec states it, with `producerCount = min(activeProducerCount, 30)` counting
only active producers.  Used to compare the spec's formula against the
source's `inverseVoteWeight`. -/
noncomputable def specComputeWeight (activeProducerCount : Nat)
    (stake slateSize variation : ℝ) : ℝ :=
  if slateSize = 0 then 0
  else
    ((1 - variation) *
        Real.sin (Real.pi / 2 * (slateSize / min (activeProducerCount : ℝ) 30)) +
      variation) * stake

/-- The number of active producers in the table (the count the spec's
formula uses, and the count `propagate_weight_change` computes). -/
def activeProducerCount (st : SysState) : Nat :=
  (st.producers.filter (fun p => p.is_active)).length


/-- `_voters.modify` lifted to the whole state. -/
def updVoter (st : SysState) (n : Nat) (f : VoterInfo → VoterInfo) : SysState :=
  { st with voters := setVoter st.voters n f }

/-- `_producers.modify` lifted to the whole state. -/
def updProducer (st : SysState) (n : Nat) (f : ProducerInfo → ProducerInfo) : SysState :=
  { st with producers := setProducer st.producers n f }

/-- `boost::container::flat_map` `operator[]` plus assignment: insert or
update the entry for `k` in the key-sorted delta map, default-constructing
`(0.0, false)` when absent (voting.cpp lines 207, 223-226, 262-266). -/
def mapUpsert (m : List (Nat × ℝ × Bool)) (k : Nat)
    (f : ℝ × Bool → ℝ × Bool) : List (Nat × ℝ × Bool) :=
  match m with
  | [] => [(k, f (0, false))]
  | (a, v) :: rest =>
    if k < a then (k, f (0, false)) :: (a, v) :: rest
    else if k = a then (a, f v) :: rest
    else (a, v) :: mapUpsert rest k f

/-- Lookup in the delta map. -/
def lookupDelta (m : List (Nat × ℝ × Bool)) (k : Nat) : Option (ℝ × Bool) :=
  (m.find? (fun e => e.1 == k)).map (fun e => e.2)

/-- The producer-overwrite loop of `propagate_weight_change` (voting.cpp
lines 344-349): for each account in the proxy's slate, `_producers.get`
(aborting with "producer not found" when absent) and overwrite
`total_votes` with the recomputed weight. -/
def overwrite_producer_votes (w : ℝ) :
    SysState → List Nat → Except String SysState
  | st, [] => Except.ok st
  | st, a :: rest =>
    match findProducer st.producers a with
    | none => Except.error "producer not found"
    | some _ =>
      overwrite_producer_votes w
        (updProducer st a (fun p => { p with total_votes := w })) rest

/-- `system_contract::propagate_weight_change` (voting.cpp lines 325-354).
The source recursion on `voter.proxy` is unbounded; `fuel` makes the
embedding total, with `fuel = 0` marking a recursion that never bottoms
out. -/
noncomputable def propagate_weight_change :
    Nat → SysState → VoterInfo → Except String SysState
  | 0, _, _ => Except.error "out of fuel"
  | fuel + 1, st, voter =>
    if ¬ (voter.proxy = 0 ∨ voter.is_proxy = false) then
      Except.error "account registered as a proxy is not allowed to use a proxy"
    else
      let totalProds : Nat := (st.producers.filter (fun p => p.is_active)).length
      let totalStake : ℝ := voter.staked + voter.proxied_vote_weight
      let new_weight := inverseVoteWeight st totalStake (totalProds : ℝ) VOTE_VARIATION
      if voter.proxy ≠ 0 then
        match findVoter st.voters voter.proxy with
        | none => Except.error "proxy not found"
        | some prx =>
          let st1 := updVoter st voter.proxy
            (fun p => { p with proxied_vote_weight := p.staked })
          match propagate_weight_change fuel st1
              { prx with proxied_vote_weight := prx.staked } with
          | Except.error e => Except.error e
          | Except.ok st2 =>
            Except.ok (updVoter st2 voter.owner
              (fun v => { v with last_vote_weight := new_weight }))
      else
        match overwrite_producer_votes new_weight st voter.producers with
        | Except.error e => Except.error e
        | Except.ok st2 =>
          Except.ok (updVoter st2 voter.owner
            (fun v => { v with last_vote_weight := new_weight }))

/-- The gstate-only update used by the activation bookkeeping. -/
def addActivated (st : SysState) (x : ℝ) : SysState :=
  { st with gstate := { st.gstate with
      total_activated_stake := st.gstate.total_activated_stake + x } }

/-- The activation bookkeeping of `update_votes` (voting.cpp lines 185-205).
`nprod` is `producers.size()`.  The middle branch re-finds the proxy row and
dereferences it without an existence check (line 194). -/
noncomputable def activation_step (threshold : ℝ) (now : Nat) (st : SysState)
    (voter : VoterInfo) (proxy : Nat) (nprod : Nat) (voting : Bool) :
    Except String SysState :=
  if voter.last_vote_weight ≤ 0 ∧ 0 < nprod ∧ voting = true then
    let st1 := addActivated st voter.staked
    let st2 := if 0 < voter.proxied_vote_weight then
        addActivated st1 voter.proxied_vote_weight
      else st1
    Except.ok (checkNetworkActivation threshold now st2)
  else if voter.last_vote_weight ≤ 0 ∧ proxy ≠ 0 ∧ voting = true then
    match findVoter st.voters proxy with
    | none => Except.error "UB: dereferenced end iterator reading last_vote_weight"
    | some prx =>
      if 0 < prx.last_vote_weight then
        Except.ok (checkNetworkActivation threshold now (addActivated st voter.staked))
      else Except.ok st
  else if nprod = 0 ∧ proxy = 0 ∧ voting = true then
    let st1 := addActivated st (-voter.staked)
    let st2 := if 0 < voter.proxied_vote_weight then
        addActivated st1 (-voter.proxied_vote_weight)
      else st1
    Except.ok st2
  else Except.ok st

/-- The "voter from second vote" phase of `update_votes` (voting.cpp lines
207-229): undo the previous vote, either by decrementing the old proxy's
`proxied_vote_weight` and propagating, or by accumulating
`-last_vote_weight` deltas (marked not-new) for the old slate. -/
noncomputable def old_vote_step (fuel : Nat) (st : SysState) (voter : VoterInfo) :
    Except String (SysState × List (Nat × ℝ × Bool)) :=
  if 0 < voter.last_vote_weight then
    if voter.proxy ≠ 0 then
      match findVoter st.voters voter.proxy with
      | none => Except.error "old proxy not found"
      | some old_proxy =>
        let st1 := updVoter st voter.proxy
          (fun v => { v with proxied_vote_weight :=
              v.proxied_vote_weight - voter.last_vote_weight })
        match propagate_weight_change fuel st1
            { old_proxy with proxied_vote_weight :=
                old_proxy.proxied_vote_weight - voter.last_vote_weight } with
        | Except.error e => Except.error e
        | Except.ok st2 => Except.ok (st2, [])
    else
      Except.ok (st, voter.producers.foldl
        (fun m p => mapUpsert m p (fun d => (d.1 - voter.last_vote_weight, false))) [])
  else Except.ok (st, [])

/-- The old-proxy detach block inside the direct-vote branch of
`update_votes` (voting.cpp lines 253-260): when the voter previously
delegated, decrement the old proxy's `proxied_vote_weight` by
`voter.staked` and propagate. -/
noncomputable def detach_old_proxy (fuel : Nat) (st : SysState) (voter : VoterInfo) :
    Except String SysState :=
  if voter.proxy ≠ 0 then
    match findVoter st.voters voter.proxy with
    | none => Except.error "old proxy not found"
    | some old_proxy =>
      propagate_weight_change fuel
        (updVoter st voter.proxy (fun v =>
          { v with proxied_vote_weight := v.proxied_vote_weight - voter.staked }))
        { old_proxy with proxied_vote_weight :=
            old_proxy.proxied_vote_weight - voter.staked }
  else Except.ok st

/-- The "apply the new choice" phase of `update_votes` (voting.cpp lines
231-273): either install the new proxy (incrementing — or on the
`!voting` path overwriting — its `proxied_vote_weight` and propagating when
it has voted), or, when `new_vote_weight >= 0`, detach from any old proxy
and accumulate `+new_vote_weight` deltas (marked new) for the new slate;
on the `!voting` path re-propagate the voter itself. -/
noncomputable def new_choice_step (fuel : Nat) (st : SysState)
    (deltas : List (Nat × ℝ × Bool)) (voter : VoterInfo)
    (voter_name proxy : Nat) (producers : List Nat) (voting : Bool)
    (new_vote_weight : ℝ) : Except String (SysState × List (Nat × ℝ × Bool)) :=
  if proxy ≠ 0 then
    match findVoter st.voters proxy with
    | none => Except.error "invalid proxy specified"
    | some new_proxy =>
      if voting = true ∧ new_proxy.is_proxy = false then Except.error "proxy not found"
      else
        let st1 := updVoter st proxy (fun v =>
          if voting then
            { v with proxied_vote_weight := v.proxied_vote_weight + voter.staked }
          else { v with proxied_vote_weight := voter.staked })
        let np' := if voting then
            { new_proxy with proxied_vote_weight :=
                new_proxy.proxied_vote_weight + voter.staked }
          else { new_proxy with proxied_vote_weight := voter.staked }
        if 0 < np'.last_vote_weight then
          match propagate_weight_change fuel st1 np' with
          | Except.error e => Except.error e
          | Except.ok st2 => Except.ok (st2, deltas)
        else Except.ok (st1, deltas)
  else
    if 0 ≤ new_vote_weight then
      match detach_old_proxy fuel st voter with
      | Except.error e => Except.error e
      | Except.ok st2 =>
        if voting then
          Except.ok (st2, producers.foldl
            (fun m p => mapUpsert m p (fun d => (d.1 + new_vote_weight, true))) deltas)
        else
          match findVoter st2.voters voter_name with
          | none => Except.error "UB: invalidated voter iterator"
          | some vcur =>
            if 0 < vcur.last_vote_weight then
              match propagate_weight_change fuel st2 vcur with
              | Except.error e => Except.error e
              | Except.ok st3 => Except.ok (st3, deltas)
            else Except.ok (st2, deltas)
    else Except.ok (st, deltas)

/-- The batched delta application of `update_votes` (voting.cpp lines
275-290): for each (key-ordered) map entry, look the producer up; a found
producer must be active when the entry came from the new slate
(`eosio_assert(!voting || active || !new)`), then `total_votes += delta`
clamped below at 0 and `total_producer_vote_weight += delta`; a missing
producer is tolerated only for entries not from the new slate. -/
noncomputable def applyDeltas (voting : Bool) :
    SysState → List (Nat × ℝ × Bool) → Except String SysState
  | st, [] => Except.ok st
  | st, (pname, pd) :: rest =>
    match findProducer st.producers pname with
    | some p =>
      if voting = true ∧ p.is_active = false ∧ pd.2 = true then
        Except.error "producer is not currently registered"
      else
        let nt := p.total_votes + pd.1
        let nt := if nt < 0 then 0 else nt
        let st1 := updProducer st pname (fun q => { q with total_votes := nt })
        let st2 := { st1 with gstate := { st1.gstate with
          total_producer_vote_weight := st1.gstate.total_producer_vote_weight + pd.1 } }
        applyDeltas voting st2 rest
    | none =>
      if pd.2 = true then Except.error "producer is not registered"
      else applyDeltas voting st rest

/-- The final voter-row write of `update_votes` (voting.cpp lines 292-296). -/
def finalize_voter (st : SysState) (voter_name proxy : Nat)
    (producers : List Nat) (w : ℝ) : SysState :=
  updVoter st voter_name (fun av =>
    { av with last_vote_weight := w, producers := producers, proxy := proxy })

/-- `system_contract::update_votes` (voting.cpp lines 153-297), composed
from its phases in source order.  Note the unchecked dereference of
`_voters.find(proxy)` when computing `totalStaked` (lines 171-174): it
happens before the existence assert at line 233 and is modelled as the
distinguished `UB:` error. -/
noncomputable def update_votes (threshold : ℝ) (now fuel : Nat) (st : SysState)
    (voter_name proxy : Nat) (producers : List Nat) (voting : Bool) :
    Except String SysState :=
  if proxy ≠ 0 ∧ producers.length ≠ 0 then
    Except.error "cannot vote for producers and proxy at same time"
  else if proxy ≠ 0 ∧ voter_name = proxy then
    Except.error "cannot proxy to self"
  else if proxy = 0 ∧ 30 < producers.length then
    Except.error "attempt to vote for too many producers"
  else if proxy = 0 ∧ ¬ List.Chain' (fun a b => a < b) producers then
    Except.error "producer votes must be unique and sorted"
  else
    match findVoter st.voters voter_name with
    | none => Except.error "user must stake before they can vote"
    | some voter =>
      if proxy ≠ 0 ∧ voter.is_proxy = true then
        Except.error "account registered as a proxy is not allowed to use a proxy"
      else
        match (if proxy ≠ 0 then
            ((findVoter st.voters proxy).map
              (fun pxy => voter.staked + pxy.proxied_vote_weight))
          else some voter.staked) with
        | none => Except.error "UB: dereferenced end iterator reading proxied_vote_weight"
        | some totalStaked =>
          let new_vote_weight :=
            inverseVoteWeight st totalStaked (producers.length : ℝ) VOTE_VARIATION
          match activation_step threshold now st voter proxy producers.length voting with
          | Except.error e => Except.error e
          | Except.ok stA =>
            match old_vote_step fuel stA voter with
            | Except.error e => Except.error e
            | Except.ok (stB, deltas) =>
              match new_choice_step fuel stB deltas voter voter_name proxy
                  producers voting new_vote_weight with
              | Except.error e => Except.error e
              | Except.ok (stC, deltas2) =>
                match applyDeltas voting stC deltas2 with
                | Except.error e => Except.error e
                | Except.ok stD =>
                  Except.ok (finalize_voter stD voter_name proxy producers new_vote_weight)

/-- `system_contract::voteproducer` (voting.cpp lines 142-145):
`require_auth` is the external authority collaborator (assumed granted),
then `update_votes(..., true)`. -/
noncomputable def voteproducer (threshold : ℝ) (now fuel : Nat) (st : SysState)
    (voter_name proxy : Nat) (producers : List Nat) : Except String SysState :=
  update_votes threshold now fuel st voter_name proxy producers true

/-- The transactional semantics of an action: on `eosio_assert` failure the
chain rolls the whole transaction back, so the observable post-state is the
pre-state together with the error. -/
noncomputable def voteproducerTx (threshold : ℝ) (now fuel : Nat) (st : SysState)
    (voter_name proxy : Nat) (producers : List Nat) : SysState × Option String :=
  match voteproducer threshold now fuel st voter_name proxy producers with
  | Except.ok st' => (st', none)
  | Except.error e => (st, some e)

/-- Is the run an aborted one? -/
def exceptErr : Except String SysState → Bool
  | Except.error _ => true
  | Except.ok _ => false

/-- `system_contract::regproxy` (voting.cpp lines 308-323). -/
def regproxy (st : SysState) (proxy : Nat) (isproxy : Bool) :
    Except String SysState :=
  match findVoter st.voters proxy with
  | some pitr =>
    if isproxy = pitr.is_proxy then Except.error "action has no effect"
    else if isproxy = true ∧ pitr.proxy ≠ 0 then
      Except.error "account that uses a proxy is not allowed to become a proxy"
    else Except.ok (updVoter st proxy (fun p => { p with is_proxy := isproxy }))
  | none =>
    Except.ok { st with voters := st.voters ++
      [{ owner := proxy, staked := 0, proxy := 0, is_proxy := isproxy,
         last_vote_weight := 0, proxied_vote_weight := 0, producers := [] }] }

/-- `system_contract::regproducer` (voting.cpp lines 38-62); the url-length
check and metadata writes carry no algorithmic content. -/
def regproducer (st : SysState) (producer producer_key : Nat) :
    Except String SysState :=
  if producer_key = 0 then Except.error "public key should not be the default value"
  else match findProducer st.producers producer with
  | some _ =>
    Except.ok (updProducer st producer
      (fun p => { p with producer_key := producer_key, is_active := true }))
  | none =>
    Except.ok { st with producers := st.producers ++
      [{ owner := producer, total_votes := 0, producer_key := producer_key,
         is_active := true }] }

/-- `system_contract::unregprod` (voting.cpp lines 64-72); `deactivate()`
zeroes the signing key and clears `is_active` (spec §3). -/
def unregprod (st : SysState) (producer : Nat) : Except String SysState :=
  match findProducer st.producers producer with
  | none => Except.error "producer not found"
  | some _ =>
    Except.ok (updProducer st producer
      (fun p => { p with producer_key := 0, is_active := false }))

/-! ### Frame lemmas -/

lemma updVoter_gstate (st : SysState) (n : Nat) (f : VoterInfo → VoterInfo) :
    (updVoter st n f).gstate = st.gstate := rfl

lemma updVoter_producers (st : SysState) (n : Nat) (f : VoterInfo → VoterInfo) :
    (updVoter st n f).producers = st.producers := rfl

lemma updProducer_gstate (st : SysState) (n : Nat) (f : ProducerInfo → ProducerInfo) :
    (updProducer st n f).gstate = st.gstate := rfl

lemma updProducer_voters (st : SysState) (n : Nat) (f : ProducerInfo → ProducerInfo) :
    (updProducer st n f).voters = st.voters := rfl

lemma addActivated_thresh (st : SysState) (x : ℝ) :
    (addActivated st x).gstate.thresh_activated_stake_time =
      st.gstate.thresh_activated_stake_time := rfl

lemma checkNetworkActivation_of_ne (threshold : ℝ) (now : Nat) (st : SysState)
    (h : st.gstate.thresh_activated_stake_time ≠ 0) :
    checkNetworkActivation threshold now st = st := by
  unfold checkNetworkActivation
  rw [if_neg]
  rintro ⟨-, h0⟩
  exact h h0

lemma checkNetworkActivation_thresh_stable (threshold : ℝ) (now : Nat) (st : SysState)
    (h : st.gstate.thresh_activated_stake_time ≠ 0) :
    (checkNetworkActivation threshold now st).gstate.thresh_activated_stake_time =
      st.gstate.thresh_activated_stake_time := by
  rw [checkNetworkActivation_of_ne _ _ _ h]

lemma overwrite_producer_votes_gstate (w : ℝ) :
    ∀ (l : List Nat) (st st' : SysState),
      overwrite_producer_votes w st l = Except.ok st' → st'.gstate = st.gstate := by
  intro l
  induction l with
  | nil =>
    intro st st' h
    simp only [overwrite_producer_votes] at h
    cases h
    rfl
  | cons a rest ih =>
    intro st st' h
    simp only [overwrite_producer_votes] at h
    cases hf : findProducer st.producers a with
    | none => rw [hf] at h; cases h
    | some p =>
      rw [hf] at h
      exact (ih _ _ h).trans (updProducer_gstate _ _ _)

lemma overwrite_producer_votes_voters (w : ℝ) :
    ∀ (l : List Nat) (st st' : SysState),
      overwrite_producer_votes w st l = Except.ok st' → st'.voters = st.voters := by
  intro l
  induction l with
  | nil =>
    intro st st' h
    simp only [overwrite_producer_votes] at h
    cases h
    rfl
  | cons a rest ih =>
    intro st st' h
    simp only [overwrite_producer_votes] at h
    cases hf : findProducer st.producers a with
    | none => rw [hf] at h; cases h
    | some p =>
      rw [hf] at h
      exact (ih _ _ h).trans (updProducer_voters _ _ _)

lemma propagate_weight_change_gstate :
    ∀ (fuel : Nat) (st : SysState) (v : VoterInfo) (st' : SysState),
      propagate_weight_change fuel st v = Except.ok st' → st'.gstate = st.gstate := by
  intro fuel
  induction fuel with
  | zero => intro st v st' h; cases h
  | succ n ih =>
    intro st v st' h
    simp only [propagate_weight_change] at h
    split at h
    · cases h
    · split at h
      · split at h
        · cases h
        · split at h
          · cases h
          · rename_i st2 hp
            injection h with h2
            subst h2
            exact (updVoter_gstate _ _ _).trans ((ih _ _ _ hp).trans (updVoter_gstate _ _ _))
      · split at h
        · cases h
        · rename_i st2 ho
          injection h with h2
          subst h2
          exact (updVoter_gstate _ _ _).trans (overwrite_producer_votes_gstate _ _ _ _ ho)

lemma applyDeltas_voters (voting : Bool) :
    ∀ (ds : List (Nat × ℝ × Bool)) (st st' : SysState),
      applyDeltas voting st ds = Except.ok st' → st'.voters = st.voters := by
  intro ds
  induction ds with
  | nil => intro st st' h; cases h; rfl
  | cons e rest ih =>
    intro st st' h
    simp only [applyDeltas] at h
    split at h
    · split at h
      · cases h
      · exact (ih _ _ h).trans rfl
    · split at h
      · cases h
      · exact ih _ _ h

lemma applyDeltas_thresh (voting : Bool) :
    ∀ (ds : List (Nat × ℝ × Bool)) (st st' : SysState),
      applyDeltas voting st ds = Except.ok st' →
        st'.gstate.thresh_activated_stake_time =
          st.gstate.thresh_activated_stake_time := by
  intro ds
  induction ds with
  | nil => intro st st' h; cases h; rfl
  | cons e rest ih =>
    intro st st' h
    simp only [applyDeltas] at h
    split at h
    · split at h
      · cases h
      · exact (ih _ _ h).trans rfl
    · split at h
      · cases h
      · exact ih _ _ h

lemma activation_step_thresh (threshold : ℝ) (now : Nat) (st : SysState)
    (voter : VoterInfo) (proxy nprod : Nat) (voting : Bool) (st' : SysState)
    (hne : st.gstate.thresh_activated_stake_time ≠ 0)
    (h : activation_step threshold now st voter proxy nprod voting = Except.ok st') :
    st'.gstate.thresh_activated_stake_time =
      st.gstate.thresh_activated_stake_time := by
  simp only [activation_step] at h
  split at h
  · injection h with h2
    subst h2
    rw [checkNetworkActivation_thresh_stable]
    · split <;> rfl
    · split <;> exact hne
  · split at h
    · split at h
      · cases h
      · split at h
        · injection h with h2
          subst h2
          rw [checkNetworkActivation_thresh_stable]
          · rfl
          · exact hne
        · injection h with h2; subst h2; rfl
    · split at h
      · injection h with h2
        subst h2
        split <;> rfl
      · injection h with h2; subst h2; rfl

lemma old_vote_step_gstate (fuel : Nat) (st : SysState) (voter : VoterInfo)
    (st' : SysState) (ds : List (Nat × ℝ × Bool))
    (h : old_vote_step fuel st voter = Except.ok (st', ds)) :
    st'.gstate = st.gstate := by
  simp only [old_vote_step] at h
  split at h
  · split at h
    · split at h
      · cases h
      · split at h
        · cases h
        · rename_i st2 hp
          cases h
          exact (propagate_weight_change_gstate _ _ _ _ hp).trans (updVoter_gstate _ _ _)
    · cases h; rfl
  · cases h; rfl

lemma detach_old_proxy_gstate (fuel : Nat) (st : SysState) (voter : VoterInfo)
    (st' : SysState) (h : detach_old_proxy fuel st voter = Except.ok st') :
    st'.gstate = st.gstate := by
  simp only [detach_old_proxy] at h
  split at h
  · split at h
    · cases h
    · exact (propagate_weight_change_gstate _ _ _ _ h).trans (updVoter_gstate _ _ _)
  · cases h; rfl

lemma new_choice_step_gstate (fuel : Nat) (st : SysState)
    (deltas : List (Nat × ℝ × Bool)) (voter : VoterInfo)
    (voter_name proxy : Nat) (producers : List Nat) (voting : Bool)
    (w : ℝ) (st' : SysState) (ds : List (Nat × ℝ × Bool))
    (h : new_choice_step fuel st deltas voter voter_name proxy producers voting w =
      Except.ok (st', ds)) :
    st'.gstate = st.gstate := by
  simp only [new_choice_step] at h
  repeat' split at h
  all_goals try cases h
  all_goals try rfl
  all_goals solve_by_elim [propagate_weight_change_gstate, detach_old_proxy_gstate,
    updVoter_gstate, Eq.trans]

lemma regproxy_gstate (st : SysState) (p : Nat) (b : Bool) (st' : SysState)
    (h : regproxy st p b = Except.ok st') : st'.gstate = st.gstate := by
  simp only [regproxy] at h
  split at h
  · split at h
    · cases h
    · split at h
      · cases h
      · cases h; rfl
  · cases h; rfl

lemma regproducer_gstate (st : SysState) (p k : Nat) (st' : SysState)
    (h : regproducer st p k = Except.ok st') : st'.gstate = st.gstate := by
  simp only [regproducer] at h
  split at h
  · cases h
  · split at h
    · cases h; rfl
    · cases h; rfl

lemma unregprod_gstate (st : SysState) (p : Nat) (st' : SysState)
    (h : unregprod st p = Except.ok st') : st'.gstate = st.gstate := by
  simp only [unregprod] at h
  split at h
  · cases h
  · cases h; rfl

lemma update_elected_producers_thresh (accept : Bool) (bt : Nat) (st : SysState) :
    (update_elected_producers accept bt st).gstate.thresh_activated_stake_time =
      st.gstate.thresh_activated_stake_time := by
  simp only [update_elected_producers]
  split
  · rfl
  · split <;> rfl

lemma update_votes_thresh (threshold : ℝ) (now fuel : Nat) (st : SysState)
    (vn px : Nat) (prods : List Nat) (voting : Bool) (st' : SysState)
    (hne : st.gstate.thresh_activated_stake_time ≠ 0)
    (h : update_votes threshold now fuel st vn px prods voting = Except.ok st') :
    st'.gstate.thresh_activated_stake_time =
      st.gstate.thresh_activated_stake_time := by
  simp only [update_votes] at h
  split at h
  · cases h
  split at h
  · cases h
  split at h
  · cases h
  split at h
  · cases h
  split at h
  · cases h
  split at h
  · cases h
  split at h
  · cases h
  split at h
  · cases h
  rename_i stA hA
  split at h
  · cases h
  rename_i stB ds hB
  split at h
  · cases h
  rename_i stC ds2 hC
  split at h
  · cases h
  rename_i stD hD
  cases h
  have e1 : stD.gstate.thresh_activated_stake_time =
      stC.gstate.thresh_activated_stake_time := applyDeltas_thresh _ _ _ _ hD
  have e2 : stC.gstate = stB.gstate :=
    new_choice_step_gstate _ _ _ _ _ _ _ _ _ _ _ hC
  have e3 : stB.gstate = stA.gstate := old_vote_step_gstate _ _ _ _ _ hB
  have e4 : stA.gstate.thresh_activated_stake_time =
      st.gstate.thresh_activated_stake_time :=
    activation_step_thresh _ _ _ _ _ _ _ _ hne hA
  exact e1.trans
    ((congrArg EosioGlobalState.thresh_activated_stake_time (e2.trans e3)).trans e4)

/-! ### Claim C7 -/

/-- Claim C7: `checkNetworkActivation` is a one-shot idempotent latch: it
sets `thresh_activated_stake_time` only when the stake threshold is crossed
and the field is still zero; once the field is non-zero no call to
`checkNetworkActivation` changes the state at all, a second call with the
threshold still crossed leaves the field unchanged, and no other operation
(`update_votes`, `update_elected_producers`, `regproxy`, `regproducer`,
`unregprod`) ever changes a non-zero value of the field. -/
theorem C7_activation_latch (threshold : ℝ) (now n1 n2 fuel bt : Nat)
    (st stI : SysState) (vn px pr k : Nat) (prods : List Nat)
    (voting accept b : Bool)
    (hne : st.gstate.thresh_activated_stake_time ≠ 0) (hn1 : n1 ≠ 0) :
    checkNetworkActivation threshold now st = st ∧
    checkNetworkActivation threshold n2 (checkNetworkActivation threshold n1 stI) =
      checkNetworkActivation threshold n1 stI ∧
    (∀ s2, update_votes threshold now fuel st vn px prods voting = Except.ok s2 →
      s2.gstate.thresh_activated_stake_time = st.gstate.thresh_activated_stake_time) ∧
    (update_elected_producers accept bt st).gstate.thresh_activated_stake_time =
      st.gstate.thresh_activated_stake_time ∧
    (∀ s2, regproxy st px b = Except.ok s2 →
      s2.gstate.thresh_activated_stake_time = st.gstate.thresh_activated_stake_time) ∧
    (∀ s2, regproducer st pr k = Except.ok s2 →
      s2.gstate.thresh_activated_stake_time = st.gstate.thresh_activated_stake_time) ∧
    (∀ s2, unregprod st pr = Except.ok s2 →
      s2.gstate.thresh_activated_stake_time = st.gstate.thresh_activated_stake_time) := by
  refine ⟨checkNetworkActivation_of_ne _ _ _ hne, ?_, ?_,
    update_elected_producers_thresh _ _ _, ?_, ?_, ?_⟩
  · by_cases c : threshold ≤ stI.gstate.total_activated_stake ∧
      stI.gstate.thresh_activated_stake_time = 0
    · have h1 : checkNetworkActivation threshold n1 stI =
          { stI with gstate := { stI.gstate with thresh_activated_stake_time := n1 } } := by
        unfold checkNetworkActivation
        rw [if_pos c]
      rw [h1]
      exact checkNetworkActivation_of_ne _ _ _ hn1
    · have h1 : checkNetworkActivation threshold n1 stI = stI := by
        unfold checkNetworkActivation
        rw [if_neg c]
      rw [h1]
      unfold checkNetworkActivation
      rw [if_neg c]
  · intro s2 h
    exact update_votes_thresh _ _ _ _ _ _ _ _ _ hne h
  · intro s2 h
    rw [regproxy_gstate _ _ _ _ h]
  · intro s2 h
    rw [regproducer_gstate _ _ _ _ h]
  · intro s2 h
    rw [unregprod_gstate _ _ _ h]

/-- A concrete state whose activation latch has already fired. -/
def stC7 : SysState :=
  { voters := [], producers := [],
    gstate := { total_activated_stake := 0, thresh_activated_stake_time := 5,
                total_producer_vote_weight := 0, last_producer_schedule_update := 0,
                last_producer_schedule_size := 0 } }

/-- Witness for C7 at a concrete latched state. -/
theorem C7_activation_latch_witness :
    (stC7.gstate.thresh_activated_stake_time ≠ 0 ∧ (1 : Nat) ≠ 0) ∧
    (checkNetworkActivation 100 7 stC7 = stC7 ∧
    checkNetworkActivation 100 2 (checkNetworkActivation 100 1 stC7) =
      checkNetworkActivation 100 1 stC7 ∧
    (∀ s2, update_votes 100 7 3 stC7 1 2 [] true = Except.ok s2 →
      s2.gstate.thresh_activated_stake_time = stC7.gstate.thresh_activated_stake_time) ∧
    (update_elected_producers true 4 stC7).gstate.thresh_activated_stake_time =
      stC7.gstate.thresh_activated_stake_time ∧
    (∀ s2, regproxy stC7 2 true = Except.ok s2 →
      s2.gstate.thresh_activated_stake_time = stC7.gstate.thresh_activated_stake_time) ∧
    (∀ s2, regproducer stC7 3 4 = Except.ok s2 →
      s2.gstate.thresh_activated_stake_time = stC7.gstate.thresh_activated_stake_time) ∧
    (∀ s2, unregprod stC7 3 = Except.ok s2 →
      s2.gstate.thresh_activated_stake_time = stC7.gstate.thresh_activated_stake_time)) :=
  ⟨⟨by decide, by decide⟩,
    C7_activation_latch 100 7 1 2 3 4 stC7 stC7 1 2 3 4 [] true true true
      (by decide) (by decide)⟩

/-! ### Claims C3 and C9: the weight model -/

lemma cap30_eq_min (x : ℝ) : (if 30 < x then (30:ℝ) else x) = min x 30 := by
  by_cases h : 30 < x
  · rw [if_pos h]
    exact (min_eq_right h.le).symm
  · rw [if_neg h]
    exact (min_eq_left (not_lt.mp h)).symm

lemma inverseVoteWeight_formula (st : SysState) (stake n v : ℝ) (hn : n ≠ 0) :
    inverseVoteWeight st stake n v =
      ((1 - v) * Real.sin (Real.pi / 2 * (n / min ((st.producers.length : ℝ)) 30)) + v)
        * stake := by
  simp only [inverseVoteWeight, M_PI_2]
  rw [if_neg hn, cap30_eq_min]

/-- An all-zero global state for concrete runs. -/
def gstate0 : EosioGlobalState :=
  { total_activated_stake := 0, thresh_activated_stake_time := 0,
    total_producer_vote_weight := 0, last_producer_schedule_update := 0,
    last_producer_schedule_size := 0 }

/-- A table with two registered producers, one active and one deactivated. -/
def stTwoProds : SysState :=
  { voters := [],
    producers := [
      { owner := 1, total_votes := 0, producer_key := 7, is_active := true },
      { owner := 2, total_votes := 0, producer_key := 0, is_active := false }],
    gstate := gstate0 }

lemma stTwoProds_len : ((stTwoProds.producers.length : ℕ) : ℝ) = 2 := by
  norm_num [stTwoProds]

/-- Counterexample to claim C3: with one active and one deactivated
registered producer, the source divides by the registered count (2), not by
`min(activeProducerCount, 30) = 1` as the claim states, so the two
formulas disagree at `stake = 100`, `slateSize = 1`. -/
theorem C3_counterexample :
    inverseVoteWeight stTwoProds 100 1 VOTE_VARIATION ≠
      specComputeWeight (activeProducerCount stTwoProds) 100 1 VOTE_VARIATION := by
  have hact : activeProducerCount stTwoProds = 1 := by
    norm_num [activeProducerCount, stTwoProds]
  have hcode : inverseVoteWeight stTwoProds 100 1 VOTE_VARIATION =
      45 * Real.sqrt 2 + 10 := by
    rw [inverseVoteWeight_formula _ _ _ _ (by norm_num)]
    rw [stTwoProds_len]
    have hmin : min (2:ℝ) 30 = 2 := by norm_num
    rw [hmin]
    have hang : Real.pi / 2 * ((1:ℝ) / 2) = Real.pi / 4 := by ring
    rw [hang, Real.sin_pi_div_four, VOTE_VARIATION]
    have h2 : (0:ℝ) ≤ 2 := by norm_num
    nlinarith [Real.sq_sqrt h2, Real.sqrt_nonneg 2]
  have hspec : specComputeWeight (activeProducerCount stTwoProds) 100 1 VOTE_VARIATION
      = 100 := by
    rw [hact]
    simp only [specComputeWeight]
    rw [if_neg (by norm_num : (1:ℝ) ≠ 0)]
    norm_num [VOTE_VARIATION, Real.sin_pi_div_two]
  rw [hcode, hspec]
  intro h
  nlinarith [Real.sq_sqrt (show (0:ℝ) ≤ 2 by norm_num), Real.sqrt_nonneg 2]

/-- Claim C3 (amended): for non-zero slates `inverseVoteWeight` computes
`((1 - variation) * sin(pi/2 * slateSize/producerCount) + variation) * stake`
where `producerCount = min(registeredProducerCount, 30)` counts all
registered producers, active or not, capped at 30. -/
theorem C3_amended_weight_formula (st : SysState) (stake n v : ℝ) (hn : n ≠ 0) :
    inverseVoteWeight st stake n v =
      ((1 - v) * Real.sin (Real.pi / 2 * (n / min ((st.producers.length : ℝ)) 30)) + v)
        * stake :=
  inverseVoteWeight_formula st stake n v hn

/-- Witness for the amended C3 at a concrete slate size and table. -/
theorem C3_amended_weight_formula_witness :
    (1:ℝ) ≠ 0 ∧
    inverseVoteWeight stTwoProds 100 1 0.1 =
      ((1 - 0.1) *
          Real.sin (Real.pi / 2 * (1 / min ((stTwoProds.producers.length : ℝ)) 30)) + 0.1)
        * 100 :=
  ⟨by norm_num, C3_amended_weight_formula stTwoProds 100 1 0.1 (by norm_num)⟩

/-- Counterexample to claim C9: with two registered producers, growing the
slate from 2 to 3 entries pushes the sine argument past `pi/2` (the source
never clamps the fraction at 1), and the weight strictly *decreases*. -/
theorem C9_counterexample :
    inverseVoteWeight stTwoProds 100 3 VOTE_VARIATION <
      inverseVoteWeight stTwoProds 100 2 VOTE_VARIATION := by
  have h3 : inverseVoteWeight stTwoProds 100 3 VOTE_VARIATION =
      45 * Real.sqrt 2 + 10 := by
    rw [inverseVoteWeight_formula _ _ _ _ (by norm_num), stTwoProds_len]
    have hmin : min (2:ℝ) 30 = 2 := by norm_num
    rw [hmin]
    have hang : Real.pi / 2 * ((3:ℝ) / 2) = Real.pi - Real.pi / 4 := by ring
    rw [hang, Real.sin_pi_sub, Real.sin_pi_div_four, VOTE_VARIATION]
    ring
  have h2 : inverseVoteWeight stTwoProds 100 2 VOTE_VARIATION = 100 := by
    rw [inverseVoteWeight_formula _ _ _ _ (by norm_num), stTwoProds_len]
    have hmin : min (2:ℝ) 30 = 2 := by norm_num
    rw [hmin]
    have hang : Real.pi / 2 * ((2:ℝ) / 2) = Real.pi / 2 := by ring
    rw [hang, Real.sin_pi_div_two, VOTE_VARIATION]
    norm_num
  rw [h2, h3]
  nlinarith [Real.sq_sqrt (show (0:ℝ) ≤ 2 by norm_num), Real.sqrt_nonneg 2]

/-- Claim C9 (amended): for fixed `stake ≥ 0` and a fixed producer table,
`inverseVoteWeight` is monotone non-decreasing in the slate size as long as
the slate size stays within `producerCount = min(registeredCount, 30)`
(fraction at most 1).  The source applies no clamping, and beyond
`producerCount` the weight can decrease (see the counterexample). -/
theorem C9_amended_monotone (st : SysState) (stake v : ℝ) (n m : ℕ)
    (hstake : 0 ≤ stake) (hv0 : 0 ≤ v) (hv1 : v ≤ 1) (hnm : n ≤ m)
    (hm : (m : ℝ) ≤ min ((st.producers.length : ℝ)) 30)
    (hT : 1 ≤ st.producers.length) :
    inverseVoteWeight st stake (n : ℝ) v ≤ inverseVoteWeight st stake (m : ℝ) v := by
  have h1 : (1:ℝ) ≤ (st.producers.length : ℝ) := by exact_mod_cast hT
  have hT0 : (0:ℝ) < min ((st.producers.length : ℝ)) 30 :=
    lt_min (lt_of_lt_of_le one_pos h1) (by norm_num)
  have hfrac_m_le : (m : ℝ) / min ((st.producers.length : ℝ)) 30 ≤ 1 :=
    (div_le_one hT0).mpr hm
  have hfrac_m_0 : (0:ℝ) ≤ (m : ℝ) / min ((st.producers.length : ℝ)) 30 :=
    div_nonneg (Nat.cast_nonneg m) hT0.le
  have hθm_le : Real.pi / 2 * ((m : ℝ) / min ((st.producers.length : ℝ)) 30) ≤
      Real.pi / 2 := by
    nth_rewrite 2 [show Real.pi / 2 = Real.pi / 2 * 1 by ring]
    exact mul_le_mul_of_nonneg_left hfrac_m_le Real.pi_div_two_pos.le
  have hθm_0 : 0 ≤ Real.pi / 2 * ((m : ℝ) / min ((st.producers.length : ℝ)) 30) :=
    mul_nonneg Real.pi_div_two_pos.le hfrac_m_0
  rcases Nat.eq_zero_or_pos m with hm0 | hm1
  · subst hm0
    have hn0 : n = 0 := Nat.le_zero.mp hnm
    subst hn0
    exact le_refl _
  · have hmne : ((m : ℕ) : ℝ) ≠ 0 := by
      exact_mod_cast Nat.pos_iff_ne_zero.mp hm1
    have hsin_m : 0 ≤ Real.sin
        (Real.pi / 2 * ((m : ℝ) / min ((st.producers.length : ℝ)) 30)) :=
      Real.sin_nonneg_of_nonneg_of_le_pi hθm_0
        (hθm_le.trans (half_le_self Real.pi_pos.le))
    rcases Nat.eq_zero_or_pos n with hn0 | hn1
    · subst hn0
      have hL : inverseVoteWeight st stake ((0:ℕ) : ℝ) v = 0 := by
        simp [inverseVoteWeight]
      rw [hL, inverseVoteWeight_formula _ _ _ _ hmne]
      apply mul_nonneg _ hstake
      exact add_nonneg (mul_nonneg (by linarith) hsin_m) hv0
    · have hnne : ((n : ℕ) : ℝ) ≠ 0 := by
        exact_mod_cast Nat.pos_iff_ne_zero.mp hn1
      rw [inverseVoteWeight_formula _ _ _ _ hnne,
        inverseVoteWeight_formula _ _ _ _ hmne]
      have hcast : (n : ℝ) ≤ (m : ℝ) := Nat.cast_le.mpr hnm
      have hfrac_le : (n : ℝ) / min ((st.producers.length : ℝ)) 30 ≤
          (m : ℝ) / min ((st.producers.length : ℝ)) 30 :=
        (div_le_div_iff_of_pos_right hT0).mpr hcast
      have hθ_le : Real.pi / 2 * ((n : ℝ) / min ((st.producers.length : ℝ)) 30) ≤
          Real.pi / 2 * ((m : ℝ) / min ((st.producers.length : ℝ)) 30) :=
        mul_le_mul_of_nonneg_left hfrac_le Real.pi_div_two_pos.le
      have hθn_0 : 0 ≤ Real.pi / 2 * ((n : ℝ) / min ((st.producers.length : ℝ)) 30) :=
        mul_nonneg Real.pi_div_two_pos.le
          (div_nonneg (Nat.cast_nonneg n) hT0.le)
      have hsin_le : Real.sin
            (Real.pi / 2 * ((n : ℝ) / min ((st.producers.length : ℝ)) 30)) ≤
          Real.sin
            (Real.pi / 2 * ((m : ℝ) / min ((st.producers.length : ℝ)) 30)) := by
        apply Real.strictMonoOn_sin.monotoneOn
        · constructor
          · linarith [Real.pi_div_two_pos]
          · exact hθ_le.trans hθm_le
        · constructor
          · linarith [Real.pi_div_two_pos]
          · exact hθm_le
        · exact hθ_le
      apply mul_le_mul_of_nonneg_right _ hstake
      have : (1 - v) * Real.sin
            (Real.pi / 2 * ((n : ℝ) / min ((st.producers.length : ℝ)) 30)) ≤
          (1 - v) * Real.sin
            (Real.pi / 2 * ((m : ℝ) / min ((st.producers.length : ℝ)) 30)) :=
        mul_le_mul_of_nonneg_left hsin_le (by linarith)
      linarith

/-- Witness for the amended C9: two producers, slate sizes 1 and 2. -/
theorem C9_amended_monotone_witness :
    ((0:ℝ) ≤ 100 ∧ (0:ℝ) ≤ 0.1 ∧ (0.1:ℝ) ≤ 1 ∧ (1:ℕ) ≤ 2 ∧
      ((2:ℕ) : ℝ) ≤ min ((stTwoProds.producers.length : ℝ)) 30 ∧
      1 ≤ stTwoProds.producers.length) ∧
    inverseVoteWeight stTwoProds 100 ((1:ℕ) : ℝ) 0.1 ≤
      inverseVoteWeight stTwoProds 100 ((2:ℕ) : ℝ) 0.1 :=
  ⟨⟨by norm_num, by norm_num, by norm_num, by norm_num,
      by norm_num [stTwoProds], by norm_num [stTwoProds]⟩,
    C9_amended_monotone stTwoProds 100 0.1 1 2 (by norm_num) (by norm_num)
      (by norm_num) (by norm_num) (by norm_num [stTwoProds]) (by norm_num [stTwoProds])⟩

/-! ### Claims C2 and C5: the election scheduler -/

/-- A deactivated producer still ranked first by `total_votes`. -/
def prodInactiveTop : ProducerInfo :=
  { owner := 5, total_votes := 100, producer_key := 0, is_active := false }

/-- An active, positively-voted producer ranked below it. -/
def prodActiveSecond : ProducerInfo :=
  { owner := 6, total_votes := 50, producer_key := 9, is_active := true }

/-- Table where the vote-ordered iteration meets the deactivated producer
first. -/
def stC2 : SysState :=
  { voters := [], producers := [prodInactiveTop, prodActiveSecond],
    gstate := gstate0 }

/-- Counterexample to claim C2: the collection loop stops at the first
non-qualifying entry instead of skipping it.  Producer 6 qualifies
(`total_votes = 50 > 0`, active) and fewer than 21 entries were collected,
yet the collected slate is empty because deactivated producer 5 with more
votes ends the loop. -/
theorem C2_counterexample :
    topProducers stC2 = [] ∧ prodActiveSecond ∈ stC2.producers ∧
      qualifies prodActiveSecond := by
  refine ⟨?_, by simp [stC2], by constructor <;> norm_num [prodActiveSecond]⟩
  have hsort : sortByVotesDesc stC2.producers = [prodInactiveTop, prodActiveSecond] := by
    simp only [stC2, sortByVotesDesc, List.foldr]
    rw [insertByVotes, insertByVotes]
    rw [if_pos]
    norm_num [prodInactiveTop, prodActiveSecond]
  rw [topProducers, hsort, top_producers_loop, if_neg]
  rintro ⟨-, -, hact⟩
  simp [prodInactiveTop] at hact

lemma top_producers_loop_eq :
    ∀ (l : List ProducerInfo) (acc : List Nat), acc.length ≤ 21 →
      top_producers_loop l acc =
        acc ++ ((qualTakeWhile l).take (21 - acc.length)).map ProducerInfo.owner := by
  intro l
  induction l with
  | nil =>
    intro acc h
    simp [top_producers_loop, qualTakeWhile]
  | cons p rest ih =>
    intro acc hacc
    by_cases hq : 0 < p.total_votes ∧ p.is_active = true
    · by_cases hlen : acc.length < 21
      · rw [top_producers_loop, if_pos ⟨hlen, hq⟩]
        rw [ih (acc ++ [p.owner]) (by simpa using Nat.succ_le_of_lt hlen)]
        rw [qualTakeWhile, if_pos hq]
        have h21 : 21 - acc.length = (21 - (acc ++ [p.owner]).length) + 1 := by
          simp only [List.length_append, List.length_singleton]
          omega
        rw [h21, List.take_succ_cons]
        simp [List.append_assoc]
      · have hlen21 : acc.length = 21 := le_antisymm hacc (not_lt.mp hlen)
        rw [top_producers_loop, if_neg (by rintro ⟨h, -⟩; exact hlen h)]
        rw [hlen21]
        simp
    · rw [top_producers_loop, if_neg (by rintro ⟨-, h⟩; exact hq h)]
      rw [qualTakeWhile, if_neg hq]
      simp

/-- Claim C2 (amended): `recomputeSlate`'s collection is the longest
all-qualifying *prefix* of the `total_votes`-descending producer list,
capped at 21: the loop stops at the first entry failing
`total_votes > 0 && is_active`, so any qualifying producer ranked below a
non-qualifying one is excluded rather than skipped over. -/
theorem C2_amended_collection (st : SysState) :
    topProducers st =
      ((qualTakeWhile (sortByVotesDesc st.producers)).take 21).map ProducerInfo.owner := by
  rw [topProducers, top_producers_loop_eq _ [] (by norm_num)]
  simp

/-- State on the abort path of `update_elected_producers`: no qualifying
candidates, but a previously published slate of size 1. -/
def stC5 : SysState :=
  { voters := [], producers := [],
    gstate := { total_activated_stake := 0, thresh_activated_stake_time := 0,
                total_producer_vote_weight := 0, last_producer_schedule_update := 0,
                last_producer_schedule_size := 1 } }

/-- Counterexample to claim C5: on the abort path (0 qualifying candidates
< previous slate size 1) the bookkeeping is *not* all unchanged —
`last_producer_schedule_update` is overwritten with the invocation time at
entry, before the abort check. -/
theorem C5_counterexample :
    (topProducers stC5).length < stC5.gstate.last_producer_schedule_size ∧
    (update_elected_producers true 99 stC5).gstate.last_producer_schedule_update = 99 ∧
    stC5.gstate.last_producer_schedule_update ≠ 99 := by
  have htop : topProducers stC5 = [] := by
    simp [topProducers, sortByVotesDesc, stC5, top_producers_loop]
  refine ⟨by rw [htop]; norm_num [stC5], ?_, by norm_num [stC5]⟩
  simp only [update_elected_producers]
  split
  · rfl
  · split <;> rfl

/-- Claim C5 (amended): `update_elected_producers` records the new schedule
size only when the slate is both large enough and accepted by the external
collaborator; on the abort path and on rejection everything else is left
unchanged — except `last_producer_schedule_update`, which is unconditionally
set to the invocation time at entry on every path (it records the last
attempt, not the last success). -/
theorem C5_amended_bookkeeping (bt bt2 : Nat) (st st2 : SysState)
    (hq : (topProducers st).length < st.gstate.last_producer_schedule_size) :
    (∀ accept, update_elected_producers accept bt st =
      { st with gstate := { st.gstate with last_producer_schedule_update := bt } }) ∧
    update_elected_producers false bt2 st2 =
      { st2 with gstate := { st2.gstate with last_producer_schedule_update := bt2 } } := by
  have hq' : (top_producers_loop (sortByVotesDesc st.producers) []).length <
      st.gstate.last_producer_schedule_size := hq
  constructor
  · intro accept
    simp only [update_elected_producers, topProducers]
    rw [if_pos hq']
  · simp only [update_elected_producers]
    split
    · rfl
    · rfl

/-- Witness for the amended C5 at the concrete abort-path state. -/
theorem C5_amended_bookkeeping_witness :
    ((topProducers stC5).length < stC5.gstate.last_producer_schedule_size) ∧
    ((∀ accept, update_elected_producers accept 42 stC5 =
      { stC5 with gstate := { stC5.gstate with last_producer_schedule_update := 42 } }) ∧
    update_elected_producers false 43 stC5 =
      { stC5 with gstate := { stC5.gstate with last_producer_schedule_update := 43 } }) :=
  ⟨by simp [topProducers, sortByVotesDesc, stC5, top_producers_loop],
    C5_amended_bookkeeping 42 43 stC5 stC5
      (by simp [topProducers, sortByVotesDesc, stC5, top_producers_loop])⟩

/-! ### Table lookup/update lemmas -/

lemma findVoter_setVoter_self (vs : List VoterInfo) (n : Nat)
    (f : VoterInfo → VoterInfo) (hf : ∀ v, (f v).owner = v.owner) :
    findVoter (setVoter vs n f) n = (findVoter vs n).map f := by
  induction vs with
  | nil => rfl
  | cons v rest ih =>
    simp only [findVoter, setVoter, List.map_cons] at *
    by_cases h : (v.owner == n) = true
    · have hfv : ((f v).owner == n) = true := by rw [hf]; exact h
      rw [if_pos h, List.find?_cons, List.find?_cons, h, hfv]
      rfl
    · have h' : (v.owner == n) = false := by simpa using h
      rw [if_neg h, List.find?_cons, List.find?_cons, h']
      exact ih

lemma findVoter_setVoter_ne (vs : List VoterInfo) (n m : Nat)
    (f : VoterInfo → VoterInfo) (hf : ∀ v, (f v).owner = v.owner)
    (hnm : m ≠ n) :
    findVoter (setVoter vs n f) m = findVoter vs m := by
  induction vs with
  | nil => rfl
  | cons v rest ih =>
    simp only [findVoter, setVoter, List.map_cons] at *
    by_cases h : (v.owner == n) = true
    · have hvn : v.owner = n := by simpa using h
      have hnotm : ¬ (n = m) := fun hc => hnm hc.symm
      have hfvm : ((f v).owner == m) = false := by
        rw [hf, hvn]
        simpa using hnotm
      have hvm : (v.owner == m) = false := by
        rw [hvn]
        simpa using hnotm
      rw [if_pos h, List.find?_cons, List.find?_cons, hfvm, hvm]
      exact ih
    · rw [if_neg h, List.find?_cons, List.find?_cons]
      cases hm : (v.owner == m)
      · exact ih
      · rfl

lemma findProducer_setProducer_self (ps : List ProducerInfo) (n : Nat)
    (f : ProducerInfo → ProducerInfo) (hf : ∀ p, (f p).owner = p.owner) :
    findProducer (setProducer ps n f) n = (findProducer ps n).map f := by
  induction ps with
  | nil => rfl
  | cons v rest ih =>
    simp only [findProducer, setProducer, List.map_cons] at *
    by_cases h : (v.owner == n) = true
    · have hfv : ((f v).owner == n) = true := by rw [hf]; exact h
      rw [if_pos h, List.find?_cons, List.find?_cons, h, hfv]
      rfl
    · have h' : (v.owner == n) = false := by simpa using h
      rw [if_neg h, List.find?_cons, List.find?_cons, h']
      exact ih

lemma findProducer_setProducer_ne (ps : List ProducerInfo) (n m : Nat)
    (f : ProducerInfo → ProducerInfo) (hf : ∀ p, (f p).owner = p.owner)
    (hnm : m ≠ n) :
    findProducer (setProducer ps n f) m = findProducer ps m := by
  induction ps with
  | nil => rfl
  | cons v rest ih =>
    simp only [findProducer, setProducer, List.map_cons] at *
    by_cases h : (v.owner == n) = true
    · have hvn : v.owner = n := by simpa using h
      have hnotm : ¬ (n = m) := fun hc => hnm hc.symm
      have hfvm : ((f v).owner == m) = false := by
        rw [hf, hvn]
        simpa using hnotm
      have hvm : (v.owner == m) = false := by
        rw [hvn]
        simpa using hnotm
      rw [if_pos h, List.find?_cons, List.find?_cons, hfvm, hvm]
      exact ih
    · rw [if_neg h, List.find?_cons, List.find?_cons]
      cases hm : (v.owner == m)
      · exact ih
      · rfl

/-! ### Claim C4: unchecked dereference of the proxy lookup -/

/-- A staked voter who has never voted and is not a proxy. -/
def voterC4 : VoterInfo :=
  { owner := 1, staked := 100, proxy := 0, is_proxy := false,
    last_vote_weight := 0, proxied_vote_weight := 0, producers := [] }

/-- State in which account 2 has no voter record. -/
def stC4 : SysState :=
  { voters := [voterC4], producers := [], gstate := gstate0 }

/-- Claim C4 (code bug): a castVote naming a proxy with no voter record does
*not* fail cleanly through the existence assert at line 233
("invalid proxy specified"); execution first dereferences the end iterator
returned by `_voters.find(proxy)` at line 173 to read
`proxied_vote_weight` — undefined behaviour in the C++ source, reached
before the existence check. -/
theorem C4_unchecked_proxy_deref :
    voteproducer 1000000 7 5 stC4 1 2 [] =
      Except.error "UB: dereferenced end iterator reading proxied_vote_weight" ∧
    findVoter stC4.voters 2 = none ∧
    voteproducer 1000000 7 5 stC4 1 2 [] ≠
      Except.error "invalid proxy specified" := by
  refine ⟨?_, rfl, ?_⟩
  · rfl
  · intro h
    rw [show voteproducer 1000000 7 5 stC4 1 2 [] =
        Except.error "UB: dereferenced end iterator reading proxied_vote_weight"
      from rfl] at h
    simp at h

/-! ### Claim C10: empty re-vote by a never-activated voter -/

/-- Claim C10: a voter that has never cast an activating vote
(`last_vote_weight <= 0`) who calls `voteproducer` with an empty slate and
no proxy succeeds, and `total_activated_stake` is decremented by
`voter.staked` (plus `proxied_vote_weight` when positive) even though that
stake was never added; the stored record afterwards still has
`last_vote_weight = 0` and no proxy, so each repetition decrements again
and the accumulator can be driven below zero. -/
theorem C10_unactivated_empty_vote_drains_stake (threshold : ℝ) (now fuel : Nat)
    (st : SysState) (vn : Nat) (V : VoterInfo)
    (hV : findVoter st.voters vn = some V)
    (hlvw : V.last_vote_weight ≤ 0)
    (hpx : V.proxy = 0) :
    ∃ st', voteproducer threshold now fuel st vn 0 [] = Except.ok st' ∧
      st'.gstate.total_activated_stake =
        st.gstate.total_activated_stake - V.staked -
          (if 0 < V.proxied_vote_weight then V.proxied_vote_weight else 0) ∧
      findVoter st'.voters vn =
        some { V with last_vote_weight := 0, producers := [], proxy := 0 } ∧
      st'.producers = st.producers := by
  set stA : SysState := (if 0 < V.proxied_vote_weight then
      addActivated (addActivated st (-V.staked)) (-V.proxied_vote_weight)
    else addActivated st (-V.staked)) with hstA
  have hact : activation_step threshold now st V 0 0 true = Except.ok stA := by
    simp only [activation_step]
    rw [if_neg (by simp), if_neg (by simp), if_pos (by simp)]
  have hold : old_vote_step fuel stA V = Except.ok (stA, []) := by
    simp only [old_vote_step]
    rw [if_neg (not_lt.mpr hlvw)]
  have hdetach : detach_old_proxy fuel stA V = Except.ok stA := by
    simp only [detach_old_proxy]
    rw [if_neg (by simp [hpx])]
  have hnew : new_choice_step fuel stA [] V vn 0 [] true 0 = Except.ok (stA, []) := by
    simp only [new_choice_step]
    rw [if_neg (by simp), if_pos le_rfl]
    simp [hdetach]
  have hivw : inverseVoteWeight st V.staked 0 VOTE_VARIATION = 0 := by
    simp [inverseVoteWeight]
  have hAv : stA.voters = st.voters := by
    rw [hstA]
    split <;> rfl
  have hAp : stA.producers = st.producers := by
    rw [hstA]
    split <;> rfl
  refine ⟨finalize_voter stA vn 0 [] 0, ?_, ?_, ?_, ?_⟩
  · simp [voteproducer, update_votes, hV, hivw, hact, hold, hnew, applyDeltas]
  · show stA.gstate.total_activated_stake = _
    rw [hstA]
    split
    · simp only [addActivated]
      ring
    · simp only [addActivated]
      ring
  · show findVoter (setVoter stA.voters vn _) vn = _
    rw [hAv]
    exact (findVoter_setVoter_self st.voters vn
        (fun av => { av with last_vote_weight := 0, producers := [], proxy := 0 })
        (fun v => rfl)).trans (by rw [hV]; rfl)
  · exact hAp

/-- A never-activated voter with stake 5 and an all-zero global state. -/
def voterC10 : VoterInfo :=
  { owner := 1, staked := 5, proxy := 0, is_proxy := false,
    last_vote_weight := 0, proxied_vote_weight := 0, producers := [] }

/-- Concrete state for the C10 witness. -/
def stC10 : SysState :=
  { voters := [voterC10], producers := [], gstate := gstate0 }

/-- Witness for C10: from `total_activated_stake = 0` a single empty
re-vote by the never-activated voter leaves it at `0 - 5`, i.e. below
zero, and the stored record again satisfies the same preconditions. -/
theorem C10_unactivated_empty_vote_drains_stake_witness :
    (findVoter stC10.voters 1 = some voterC10 ∧ voterC10.last_vote_weight ≤ 0 ∧
      voterC10.proxy = 0) ∧
    (∃ st', voteproducer 1000000 7 5 stC10 1 0 [] = Except.ok st' ∧
      st'.gstate.total_activated_stake =
        stC10.gstate.total_activated_stake - voterC10.staked -
          (if 0 < voterC10.proxied_vote_weight then voterC10.proxied_vote_weight else 0) ∧
      findVoter st'.voters 1 =
        some { voterC10 with last_vote_weight := 0, producers := [], proxy := 0 } ∧
      st'.producers = stC10.producers) :=
  ⟨⟨rfl, by norm_num [voterC10], rfl⟩,
    C10_unactivated_empty_vote_drains_stake 1000000 7 5 stC10 1 voterC10 rfl
      (by norm_num [voterC10]) rfl⟩

/-! ### Claim C6: unbounded recursion in propagate_weight_change -/

/-- A malformed two-voter delegation cycle: each delegates to the other,
neither is flagged `is_proxy`, so the defensive assert at line 326 passes
on both. -/
def CycleInv (st : SysState) : Prop :=
  (∃ a, findVoter st.voters 1 = some a ∧ a.proxy = 2 ∧ a.is_proxy = false) ∧
  (∃ b, findVoter st.voters 2 = some b ∧ b.proxy = 1 ∧ b.is_proxy = false)

lemma propagate_cycle_out_of_fuel :
    ∀ (fuel : Nat) (st : SysState) (v : VoterInfo),
      CycleInv st → (v.proxy = 1 ∨ v.proxy = 2) → v.is_proxy = false →
      propagate_weight_change fuel st v = Except.error "out of fuel" := by
  intro fuel
  induction fuel with
  | zero => intro st v _ _ _; rfl
  | succ n ih =>
    intro st v hInv hp hnp
    obtain ⟨⟨a, ha, hap, hanp⟩, ⟨b, hb, hbp, hbnp⟩⟩ := hInv
    simp only [propagate_weight_change]
    rw [if_neg (by simp [hnp])]
    rw [if_pos (by rcases hp with h | h <;> simp [h])]
    rcases hp with h1 | h2
    · rw [h1]
      simp only [ha]
      have hInv1 : CycleInv (updVoter st 1
          (fun p => { p with proxied_vote_weight := p.staked })) := by
        constructor
        · refine ⟨{ a with proxied_vote_weight := a.staked }, ?_, hap, hanp⟩
          exact (findVoter_setVoter_self st.voters 1
            (fun p => { p with proxied_vote_weight := p.staked })
            (fun v => rfl)).trans (by rw [ha]; rfl)
        · refine ⟨b, ?_, hbp, hbnp⟩
          exact (findVoter_setVoter_ne st.voters 1 2
            (fun p => { p with proxied_vote_weight := p.staked })
            (fun v => rfl) (by norm_num)).trans hb
      rw [ih _ { a with proxied_vote_weight := a.staked } hInv1 (Or.inr hap) hanp]
    · rw [h2]
      simp only [hb]
      have hInv2 : CycleInv (updVoter st 2
          (fun p => { p with proxied_vote_weight := p.staked })) := by
        constructor
        · refine ⟨a, ?_, hap, hanp⟩
          exact (findVoter_setVoter_ne st.voters 2 1
            (fun p => { p with proxied_vote_weight := p.staked })
            (fun v => rfl) (by norm_num)).trans ha
        · refine ⟨{ b with proxied_vote_weight := b.staked }, ?_, hbp, hbnp⟩
          exact (findVoter_setVoter_self st.voters 2
            (fun p => { p with proxied_vote_weight := p.staked })
            (fun v => rfl)).trans (by rw [hb]; rfl)
      rw [ih _ { b with proxied_vote_weight := b.staked } hInv2 (Or.inl hbp) hbnp]

/-- One half of the malformed cycle. -/
def voterCycA : VoterInfo :=
  { owner := 1, staked := 10, proxy := 2, is_proxy := false,
    last_vote_weight := 0, proxied_vote_weight := 0, producers := [] }

/-- The other half of the malformed cycle. -/
def voterCycB : VoterInfo :=
  { owner := 2, staked := 20, proxy := 1, is_proxy := false,
    last_vote_weight := 0, proxied_vote_weight := 0, producers := [] }

/-- The cyclic state. -/
def stCycle : SysState :=
  { voters := [voterCycA, voterCycB], producers := [], gstate := gstate0 }

/-- Claim C6 (code bug): `propagate_weight_change` has *no* bounded
recursion-depth guard; on the malformed two-voter delegation cycle its
recursion on the delegate never bottoms out — the fuelled embedding
exhausts every finite recursion depth, i.e. the source recursion
diverges (in the chain runtime: stack overflow) instead of terminating. -/
theorem C6_propagate_no_depth_guard :
    ∀ fuel : Nat,
      propagate_weight_change fuel stCycle voterCycA = Except.error "out of fuel" :=
  fun fuel =>
    propagate_cycle_out_of_fuel fuel stCycle voterCycA
      ⟨⟨voterCycA, rfl, rfl, rfl⟩, ⟨voterCycB, rfl, rfl, rfl⟩⟩ (Or.inr rfl) rfl

/-! ### Producer-activity frame lemmas (for claims C1 and C8) -/

/-- Presence-and-activity view of a producer row. -/
def activeAt (st : SysState) (q : Nat) : Option Bool :=
  (findProducer st.producers q).map ProducerInfo.is_active

lemma checkNetworkActivation_voters (threshold : ℝ) (now : Nat) (st : SysState) :
    (checkNetworkActivation threshold now st).voters = st.voters := by
  rw [checkNetworkActivation]
  split <;> rfl

lemma checkNetworkActivation_producers (threshold : ℝ) (now : Nat) (st : SysState) :
    (checkNetworkActivation threshold now st).producers = st.producers := by
  rw [checkNetworkActivation]
  split <;> rfl

lemma checkNetworkActivation_total (threshold : ℝ) (now : Nat) (st : SysState) :
    (checkNetworkActivation threshold now st).gstate.total_activated_stake =
      st.gstate.total_activated_stake := by
  rw [checkNetworkActivation]
  split <;> rfl

lemma activation_step_ok_no_proxy (threshold : ℝ) (now : Nat) (st : SysState)
    (voter : VoterInfo) (nprod : Nat) (voting : Bool) :
    ∃ stA, activation_step threshold now st voter 0 nprod voting = Except.ok stA ∧
      stA.voters = st.voters ∧ stA.producers = st.producers := by
  simp only [activation_step]
  split
  · exact ⟨_, rfl, by
      rw [checkNetworkActivation_voters]
      split <;> rfl, by
      rw [checkNetworkActivation_producers]
      split <;> rfl⟩
  · split
    · rename_i hc
      exact absurd rfl hc.2.1
    · split
      · exact ⟨_, rfl, by split <;> rfl, by split <;> rfl⟩
      · exact ⟨st, rfl, rfl, rfl⟩

lemma activeAt_updProducer (st : SysState) (a q : Nat)
    (f : ProducerInfo → ProducerInfo)
    (hf : ∀ p, (f p).owner = p.owner) (hfa : ∀ p, (f p).is_active = p.is_active) :
    activeAt (updProducer st a f) q = activeAt st q := by
  by_cases h : q = a
  · subst h
    show ((findProducer (setProducer st.producers q f)) q).map _ = _
    rw [findProducer_setProducer_self _ _ _ hf, activeAt]
    cases hq : findProducer st.producers q with
    | none => rfl
    | some pr => simp [hfa]
  · show ((findProducer (setProducer st.producers a f)) q).map _ = _
    rw [findProducer_setProducer_ne _ _ _ _ hf h]
    rfl

lemma overwrite_producer_votes_activeAt (w : ℝ) :
    ∀ (l : List Nat) (st st' : SysState),
      overwrite_producer_votes w st l = Except.ok st' →
      ∀ q, activeAt st' q = activeAt st q := by
  intro l
  induction l with
  | nil =>
    intro st st' h q
    cases h
    rfl
  | cons a rest ih =>
    intro st st' h q
    simp only [overwrite_producer_votes] at h
    cases hf : findProducer st.producers a with
    | none => rw [hf] at h; cases h
    | some p =>
      rw [hf] at h
      exact (ih _ _ h q).trans
        (activeAt_updProducer _ _ _ _ (fun p => rfl) (fun p => rfl))

lemma updVoter_activeAt (st : SysState) (n : Nat) (f : VoterInfo → VoterInfo) (q : Nat) :
    activeAt (updVoter st n f) q = activeAt st q := rfl

lemma propagate_weight_change_activeAt :
    ∀ (fuel : Nat) (st : SysState) (v : VoterInfo) (st' : SysState),
      propagate_weight_change fuel st v = Except.ok st' →
      ∀ q, activeAt st' q = activeAt st q := by
  intro fuel
  induction fuel with
  | zero => intro st v st' h; cases h
  | succ n ih =>
    intro st v st' h q
    simp only [propagate_weight_change] at h
    split at h
    · cases h
    · split at h
      · split at h
        · cases h
        · split at h
          · cases h
          · rename_i st2 hp
            injection h with h2
            subst h2
            exact ((ih _ _ _ hp q).trans (updVoter_activeAt _ _ _ q)).trans rfl
      · split at h
        · cases h
        · rename_i st2 ho
          injection h with h2
          subst h2
          exact (overwrite_producer_votes_activeAt _ _ _ _ ho q).trans rfl

lemma detach_old_proxy_activeAt (fuel : Nat) (st : SysState) (voter : VoterInfo)
    (st' : SysState) (h : detach_old_proxy fuel st voter = Except.ok st') :
    ∀ q, activeAt st' q = activeAt st q := by
  intro q
  simp only [detach_old_proxy] at h
  split at h
  · split at h
    · cases h
    · exact (propagate_weight_change_activeAt _ _ _ _ h q).trans rfl
  · cases h; rfl

lemma old_vote_step_activeAt (fuel : Nat) (st : SysState) (voter : VoterInfo)
    (st' : SysState) (ds : List (Nat × ℝ × Bool))
    (h : old_vote_step fuel st voter = Except.ok (st', ds)) :
    ∀ q, activeAt st' q = activeAt st q := by
  intro q
  simp only [old_vote_step] at h
  split at h
  · split at h
    · split at h
      · cases h
      · split at h
        · cases h
        · rename_i st2 hp
          cases h
          exact (propagate_weight_change_activeAt _ _ _ _ hp q).trans rfl
    · cases h; rfl
  · cases h; rfl

/-! ### Delta-map lemmas -/

lemma lookupDelta_mapUpsert_self_true (m : List (Nat × ℝ × Bool)) (k : Nat)
    (f : ℝ × Bool → ℝ × Bool) (hf : ∀ d, (f d).2 = true) :
    ∃ x, lookupDelta (mapUpsert m k f) k = some (x, true) := by
  induction m with
  | nil =>
    refine ⟨(f (0, false)).1, ?_⟩
    simp [mapUpsert, lookupDelta, List.find?_cons]
    exact (Prod.mk.eta (p := f (0, false))).symm.trans (by rw [Prod.mk.injEq]; exact ⟨rfl, hf _⟩) |>.symm ▸ rfl
  | cons e rest ih =>
    obtain ⟨a, v⟩ := e
    simp only [mapUpsert]
    by_cases h1 : k < a
    · rw [if_pos h1]
      refine ⟨(f (0, false)).1, ?_⟩
      simp [lookupDelta, List.find?_cons]
      rw [show f (0, false) = ((f (0, false)).1, true) from by
        rw [Prod.mk.injEq]
        exact ⟨rfl, hf _⟩]
    · rw [if_neg h1]
      by_cases h2 : k = a
      · rw [if_pos h2]
        subst h2
        refine ⟨(f v).1, ?_⟩
        simp [lookupDelta, List.find?_cons]
        rw [show f v = ((f v).1, true) from by
          rw [Prod.mk.injEq]
          exact ⟨rfl, hf _⟩]
      · rw [if_neg h2]
        obtain ⟨x, hx⟩ := ih
        refine ⟨x, ?_⟩
        have hka : (a == k) = false := by
          simp
          exact fun hc => h2 hc.symm
        simpa [lookupDelta, List.find?_cons, hka] using hx

lemma lookupDelta_mapUpsert_ne (m : List (Nat × ℝ × Bool)) (k k' : Nat)
    (f : ℝ × Bool → ℝ × Bool) (h : k' ≠ k) :
    lookupDelta (mapUpsert m k f) k' = lookupDelta m k' := by
  have hkk' : (k == k') = false := by
    simp
    exact fun hc => h hc.symm
  induction m with
  | nil => simp [mapUpsert, lookupDelta, List.find?_cons, hkk']
  | cons e rest ih =>
    obtain ⟨a, v⟩ := e
    simp only [mapUpsert]
    by_cases h1 : k < a
    · rw [if_pos h1]
      simp [lookupDelta, List.find?_cons, hkk']
    · rw [if_neg h1]
      by_cases h2 : k = a
      · rw [if_pos h2]
        subst h2
        simp [lookupDelta, List.find?_cons, hkk']
      · rw [if_neg h2]
        by_cases h3 : (a == k') = true
        · simp [lookupDelta, List.find?_cons, h3]
        · have h3' : (a == k') = false := by simpa using h3
          simpa [lookupDelta, List.find?_cons, h3'] using ih

lemma foldl_upsert_true (w : ℝ) :
    ∀ (l : List Nat) (m0 : List (Nat × ℝ × Bool)) (p : Nat),
      (p ∈ l ∨ ∃ x, lookupDelta m0 p = some (x, true)) →
      ∃ x, lookupDelta
          (l.foldl (fun m q => mapUpsert m q (fun d => (d.1 + w, true))) m0) p =
        some (x, true) := by
  intro l
  induction l with
  | nil =>
    intro m0 p h
    rcases h with h | h
    · cases h
    · simpa using h
  | cons q rest ih =>
    intro m0 p h
    rw [List.foldl_cons]
    apply ih
    by_cases hpq : p = q
    · subst hpq
      exact Or.inr (lookupDelta_mapUpsert_self_true _ _ _ (fun d => rfl))
    · rcases h with h | h
      · rcases List.mem_cons.mp h with h1 | h1
        · exact absurd h1 hpq
        · exact Or.inl h1
      · exact Or.inr (by rw [lookupDelta_mapUpsert_ne _ _ _ _ hpq]; exact h)

lemma activeAt_gstate_irrel (stx : SysState) (g : EosioGlobalState) (q : Nat) :
    activeAt { stx with gstate := g } q = activeAt stx q := rfl

lemma applyDeltas_error_of_bad :
    ∀ (ds : List (Nat × ℝ × Bool)) (st : SysState) (p : Nat) (x : ℝ),
      lookupDelta ds p = some (x, true) →
      (activeAt st p = none ∨ activeAt st p = some false) →
      exceptErr (applyDeltas true st ds) = true := by
  intro ds
  induction ds with
  | nil =>
    intro st p x hl hbad
    simp [lookupDelta] at hl
  | cons e rest ih =>
    obtain ⟨k, pd⟩ := e
    intro st p x hl hbad
    simp only [applyDeltas]
    by_cases hkp : k = p
    · subst hkp
      have hpd2 : pd.2 = true := by
        have hks : (k == k) = true := by simp
        simp only [lookupDelta, List.find?_cons, hks, Option.map_some] at hl
        exact congrArg Prod.snd (Option.some.inj hl)
      rcases hbad with hb | hb
      · have hf : findProducer st.producers k = none := by
          rw [activeAt] at hb
          exact Option.map_eq_none.mp hb
        simp only [hf, if_pos hpd2]
        rfl
      · obtain ⟨pr, hpr, hpra⟩ :
            ∃ pr, findProducer st.producers k = some pr ∧ pr.is_active = false := by
          rw [activeAt] at hb
          cases hfp : findProducer st.producers k with
          | none => rw [hfp] at hb; cases hb
          | some pr =>
            rw [hfp] at hb
            exact ⟨pr, rfl, Option.some.inj hb⟩
        simp only [hpr]
        rw [if_pos ⟨trivial, hpra, hpd2⟩]
        rfl
    · have hkpb : (k == p) = false := by
        simp
        exact hkp
      have hl' : lookupDelta rest p = some (x, true) := by
        simpa [lookupDelta, List.find?_cons, hkpb] using hl
      cases hf : findProducer st.producers k with
      | none =>
        by_cases hnew : pd.2 = true
        · simp only [hf]
          rw [if_pos hnew]
          rfl
        · simp only [hf]
          rw [if_neg hnew]
          exact ih _ _ _ hl' hbad
      | some pr =>
        simp only [hf]
        by_cases hass : True ∧ pr.is_active = false ∧ pd.2 = true
        · rw [if_pos hass]
          rfl
        · rw [if_neg hass]
          apply ih _ _ _ hl'
          have hstep : activeAt (updProducer st k (fun q =>
              { q with total_votes :=
                  if pr.total_votes + pd.1 < 0 then 0 else pr.total_votes + pd.1 })) p =
              activeAt st p :=
            activeAt_updProducer st k p _ (fun p => rfl) (fun p => rfl)
          rcases hbad with hb | hb
          · exact Or.inl (((activeAt_gstate_irrel (updProducer st k (fun q =>
              { q with total_votes :=
                  if pr.total_votes + pd.1 < 0 then 0 else pr.total_votes + pd.1 })) _ p).trans
              hstep).trans hb)
          · exact Or.inr (((activeAt_gstate_irrel (updProducer st k (fun q =>
              { q with total_votes :=
                  if pr.total_votes + pd.1 < 0 then 0 else pr.total_votes + pd.1 })) _ p).trans
              hstep).trans hb)

lemma new_choice_step_direct (fuel : Nat) (st : SysState)
    (ds : List (Nat × ℝ × Bool)) (V : VoterInfo) (vn : Nat)
    (prods : List Nat) (w : ℝ) (hw : 0 ≤ w) :
    (∃ e, new_choice_step fuel st ds V vn 0 prods true w = Except.error e) ∨
    (∃ st2, new_choice_step fuel st ds V vn 0 prods true w =
        Except.ok (st2, prods.foldl
          (fun m p => mapUpsert m p (fun d => (d.1 + w, true))) ds) ∧
      ∀ q, activeAt st2 q = activeAt st q) := by
  simp only [new_choice_step]
  rw [if_neg (by simp), if_pos hw]
  cases hD : detach_old_proxy fuel st V with
  | error e =>
    left
    exact ⟨e, rfl⟩
  | ok st2 =>
    right
    exact ⟨st2, rfl, fun q => detach_old_proxy_activeAt _ _ _ _ hD q⟩

/-! ### Claim C1 -/

/-- Claim C1 (amended): every `eosio_assert` failure in
`voteproducer`/`update_votes` aborts the whole transaction with no state
change (the wrapper restores the pre-state); and a direct-vote slate entry
naming an inactive or unregistered producer does raise such an abort —
*provided* the newly computed vote weight is non-negative, since only then
does the new slate reach the delta-application check at line 278. -/
theorem C1_amended_abort_atomicity (threshold : ℝ) (now fuel : Nat) (st : SysState)
    (vn p : Nat) (prods : List Nat) (V : VoterInfo)
    (hV : findVoter st.voters vn = some V)
    (hmem : p ∈ prods)
    (hbad : activeAt st p = none ∨ activeAt st p = some false)
    (hw : 0 ≤ inverseVoteWeight st V.staked ((prods.length : ℕ) : ℝ) VOTE_VARIATION) :
    exceptErr (voteproducer threshold now fuel st vn 0 prods) = true ∧
    (voteproducerTx threshold now fuel st vn 0 prods).1 = st := by
  set w : ℝ := inverseVoteWeight st V.staked ((prods.length : ℕ) : ℝ) VOTE_VARIATION
    with hwdef
  have E : exceptErr (voteproducer threshold now fuel st vn 0 prods) = true := by
    by_cases h30 : 30 < prods.length
    · have hr : voteproducer threshold now fuel st vn 0 prods =
          Except.error "attempt to vote for too many producers" := by
        simp only [voteproducer, update_votes]
        rw [if_neg (by simp), if_neg (by simp), if_pos ⟨trivial, h30⟩]
      rw [hr]
      rfl
    · by_cases hsort : List.Chain' (fun a b => a < b) prods
      · obtain ⟨stA, hact, hAv, hAp⟩ :=
          activation_step_ok_no_proxy threshold now st V prods.length true
        have hrun : voteproducer threshold now fuel st vn 0 prods =
            (match old_vote_step fuel stA V with
             | Except.error e => Except.error e
             | Except.ok (stB, deltas) =>
               match new_choice_step fuel stB deltas V vn 0 prods true w with
               | Except.error e => Except.error e
               | Except.ok (stC, ds2) =>
                 match applyDeltas true stC ds2 with
                 | Except.error e => Except.error e
                 | Except.ok stD =>
                   Except.ok (finalize_voter stD vn 0 prods w)) := by
          simp only [voteproducer, update_votes]
          rw [if_neg (by simp), if_neg (by simp), if_neg (fun hc => h30 hc.2),
            if_neg (fun hc => hc.2 hsort)]
          simp only [hV]
          rw [if_neg (by simp), if_neg (by simp)]
          simp only [hact, hwdef]
        rw [hrun]
        cases hB : old_vote_step fuel stA V with
        | error e => rfl
        | ok pair =>
          obtain ⟨stB, ds⟩ := pair
          show exceptErr
              (match new_choice_step fuel stB ds V vn 0 prods true w with
               | Except.error e => Except.error e
               | Except.ok (stC, ds2) =>
                 match applyDeltas true stC ds2 with
                 | Except.error e => Except.error e
                 | Except.ok stD =>
                   Except.ok (finalize_voter stD vn 0 prods w)) = true
          rcases new_choice_step_direct fuel stB ds V vn prods w hw with
            ⟨e, he⟩ | ⟨st2, hok, hactiv⟩
          · rw [he]
            rfl
          · rw [hok]
            show exceptErr
                (match applyDeltas true st2 (prods.foldl (fun m q => mapUpsert m q
                    (fun d => (d.1 + w, true))) ds) with
                 | Except.error e => Except.error e
                 | Except.ok stD =>
                   Except.ok (finalize_voter stD vn 0 prods w)) = true
            have hbadB : activeAt stB p = none ∨ activeAt stB p = some false := by
              have h1 : activeAt stB p = activeAt stA p :=
                old_vote_step_activeAt _ _ _ _ _ hB p
              have h2 : activeAt stA p = activeAt st p := by
                rw [activeAt, activeAt, hAp]
              rcases hbad with hb | hb
              · exact Or.inl ((h1.trans h2).trans hb)
              · exact Or.inr ((h1.trans h2).trans hb)
            have hbad2 : activeAt st2 p = none ∨ activeAt st2 p = some false := by
              rcases hbadB with hb | hb
              · exact Or.inl ((hactiv p).trans hb)
              · exact Or.inr ((hactiv p).trans hb)
            obtain ⟨x, hx⟩ := foldl_upsert_true w prods ds p (Or.inl hmem)
            have hE2 := applyDeltas_error_of_bad _ st2 p x hx hbad2
            cases hD2 : applyDeltas true st2 (prods.foldl (fun m q => mapUpsert m q
                (fun d => (d.1 + w, true))) ds) with
            | error e => rfl
            | ok stD =>
              rw [hD2] at hE2
              simp [exceptErr] at hE2
      · have hr : voteproducer threshold now fuel st vn 0 prods =
            Except.error "producer votes must be unique and sorted" := by
          simp only [voteproducer, update_votes]
          rw [if_neg (by simp), if_neg (by simp), if_neg (fun hc => h30 hc.2),
            if_pos ⟨trivial, hsort⟩]
        rw [hr]
        rfl
  refine ⟨E, ?_⟩
  simp only [voteproducerTx]
  cases hres : voteproducer threshold now fuel st vn 0 prods with
  | ok s =>
    rw [hres] at E
    simp [exceptErr] at E
  | error e => rfl

lemma neg_weight_first_vote (threshold : ℝ) (now fuel : Nat) (st : SysState)
    (vn : Nat) (prods : List Nat) (V : VoterInfo)
    (hV : findVoter st.voters vn = some V)
    (hlvw : V.last_vote_weight ≤ 0)
    (hpx : V.proxy = 0)
    (h30 : ¬ 30 < prods.length)
    (hsort : List.Chain' (fun a b => a < b) prods)
    (hlen : prods.length ≠ 0)
    (hw : inverseVoteWeight st V.staked ((prods.length : ℕ) : ℝ) VOTE_VARIATION < 0) :
    ∃ st', voteproducer threshold now fuel st vn 0 prods = Except.ok st' ∧
      st'.gstate.total_activated_stake =
        st.gstate.total_activated_stake + V.staked +
          (if 0 < V.proxied_vote_weight then V.proxied_vote_weight else 0) ∧
      (findVoter st'.voters vn).map VoterInfo.producers = some prods := by
  set w : ℝ := inverseVoteWeight st V.staked ((prods.length : ℕ) : ℝ) VOTE_VARIATION
    with hwdef
  set stA : SysState := checkNetworkActivation threshold now
      (if 0 < V.proxied_vote_weight then
        addActivated (addActivated st V.staked) V.proxied_vote_weight
      else addActivated st V.staked) with hstA
  have hact : activation_step threshold now st V 0 prods.length true =
      Except.ok stA := by
    simp only [activation_step]
    rw [if_pos ⟨hlvw, Nat.pos_of_ne_zero hlen, trivial⟩]
  have hold : old_vote_step fuel stA V = Except.ok (stA, []) := by
    simp only [old_vote_step]
    rw [if_neg (not_lt.mpr hlvw)]
  have hnew : new_choice_step fuel stA [] V vn 0 prods true w =
      Except.ok (stA, []) := by
    simp only [new_choice_step]
    rw [if_neg (by simp), if_neg (not_le.mpr hw)]
  have hrun : voteproducer threshold now fuel st vn 0 prods =
      (match old_vote_step fuel stA V with
       | Except.error e => Except.error e
       | Except.ok (stB, deltas) =>
         match new_choice_step fuel stB deltas V vn 0 prods true w with
         | Except.error e => Except.error e
         | Except.ok (stC, ds2) =>
           match applyDeltas true stC ds2 with
           | Except.error e => Except.error e
           | Except.ok stD =>
             Except.ok (finalize_voter stD vn 0 prods w)) := by
    simp only [voteproducer, update_votes]
    rw [if_neg (by simp), if_neg (by simp), if_neg (fun hc => h30 hc.2),
      if_neg (fun hc => hc.2 hsort)]
    simp only [hV]
    rw [if_neg (by simp), if_neg (by simp)]
    simp only [hact, hwdef]
  have hAv : stA.voters = st.voters := by
    rw [hstA, checkNetworkActivation_voters]
    split <;> rfl
  refine ⟨finalize_voter stA vn 0 prods w, ?_, ?_, ?_⟩
  · rw [hrun]
    simp only [hold, hnew]
    try rfl
  · show stA.gstate.total_activated_stake = _
    rw [hstA, checkNetworkActivation_total]
    split
    · simp only [addActivated]
      try ring
    · simp only [addActivated]
      try ring
  · show (findVoter (setVoter stA.voters vn _) vn).map _ = _
    rw [hAv]
    rw [(findVoter_setVoter_self st.voters vn
        (fun av => { av with last_vote_weight := w, producers := prods, proxy := 0 })
        (fun v => rfl)), hV]
    rfl

/-- The voter for the C1 counterexample. -/
def voterC1 : VoterInfo :=
  { owner := 100, staked := 100, proxy := 0, is_proxy := false,
    last_vote_weight := 0, proxied_vote_weight := 0, producers := [] }

/-- Two active registered producers; the slate below names five accounts,
none of them registered. -/
def stC1 : SysState :=
  { voters := [voterC1],
    producers := [
      { owner := 10, total_votes := 0, producer_key := 3, is_active := true },
      { owner := 20, total_votes := 0, producer_key := 4, is_active := true }],
    gstate := gstate0 }

/-- Counterexample to claim C1: a slate of five entries, all naming
unregistered producers, does *not* abort — with only two registered
producers the sine argument is `5*pi/4`, the computed weight is negative,
the new slate never reaches the registration check at line 278, and the
operation succeeds while changing state (`total_activated_stake` rises
from 0 to 100 and the bogus slate is stored on the voter record). -/
theorem C1_counterexample :
    findProducer stC1.producers 1 = none ∧ (1 : Nat) ∈ [1, 2, 3, 4, 5] ∧
    (voteproducerTx 1000000 7 5 stC1 100 0 [1, 2, 3, 4, 5]).2 = none ∧
    (voteproducerTx 1000000 7 5 stC1 100 0
        [1, 2, 3, 4, 5]).1.gstate.total_activated_stake = 100 ∧
    stC1.gstate.total_activated_stake = 0 ∧
    ((findVoter (voteproducerTx 1000000 7 5 stC1 100 0
        [1, 2, 3, 4, 5]).1.voters 100).map VoterInfo.producers =
      some [1, 2, 3, 4, 5]) := by
  have hwneg : inverseVoteWeight stC1 voterC1.staked
      ((List.length [1, 2, 3, 4, 5] : ℕ) : ℝ) VOTE_VARIATION < 0 := by
    rw [inverseVoteWeight_formula _ _ _ _ (by norm_num)]
    have hlen2 : ((stC1.producers.length : ℕ) : ℝ) = 2 := by norm_num [stC1]
    rw [hlen2]
    have hmin : min (2:ℝ) 30 = 2 := by norm_num
    rw [hmin]
    have hfive : ((List.length [1, 2, 3, 4, 5] : ℕ) : ℝ) = 5 := by norm_num
    rw [hfive]
    have hang : Real.pi / 2 * ((5:ℝ) / 2) = Real.pi - (-(Real.pi / 4)) := by ring
    rw [hang, Real.sin_pi_sub, Real.sin_neg, Real.sin_pi_div_four, VOTE_VARIATION]
    have hstk : voterC1.staked = 100 := rfl
    rw [hstk]
    nlinarith [Real.sq_sqrt (show (0:ℝ) ≤ 2 by norm_num), Real.sqrt_nonneg 2]
  obtain ⟨st', hok, htot, hprods⟩ :=
    neg_weight_first_vote 1000000 7 5 stC1 100 [1, 2, 3, 4, 5] voterC1 rfl
      (by norm_num [voterC1]) rfl (by norm_num) (by norm_num [List.chain'_cons]) (by norm_num) hwneg
  refine ⟨rfl, by simp, ?_, ?_, rfl, ?_⟩
  · simp only [voteproducerTx, voteproducer] at hok ⊢
    rw [hok]
  · simp only [voteproducerTx, voteproducer] at hok ⊢
    rw [hok]
    rw [htot]
    norm_num [stC1, gstate0, voterC1]
  · simp only [voteproducerTx, voteproducer] at hok ⊢
    rw [hok]
    exact hprods

/-- Voter for the C1 witness run. -/
def voterC1w : VoterInfo :=
  { owner := 1, staked := 100, proxy := 0, is_proxy := false,
    last_vote_weight := 0, proxied_vote_weight := 0, producers := [] }

/-- One active registered producer; the slate below names account 11,
which is unregistered. -/
def stC1w : SysState :=
  { voters := [voterC1w],
    producers := [{ owner := 10, total_votes := 0, producer_key := 3,
                    is_active := true }],
    gstate := gstate0 }

lemma stC1w_weight :
    inverseVoteWeight stC1w voterC1w.staked
      ((List.length [11] : ℕ) : ℝ) VOTE_VARIATION = 100 := by
  rw [inverseVoteWeight_formula _ _ _ _ (by norm_num)]
  have hlen1 : ((stC1w.producers.length : ℕ) : ℝ) = 1 := by norm_num [stC1w]
  rw [hlen1]
  have hmin : min (1:ℝ) 30 = 1 := by norm_num
  rw [hmin]
  have hone : ((List.length [11] : ℕ) : ℝ) = 1 := by norm_num
  rw [hone]
  have hang : Real.pi / 2 * ((1:ℝ) / 1) = Real.pi / 2 := by ring
  rw [hang, Real.sin_pi_div_two, VOTE_VARIATION]
  have hstk : voterC1w.staked = 100 := rfl
  rw [hstk]
  norm_num

/-- Witness for the amended C1: naming unregistered producer 11 with a
non-negative computed weight aborts the run atomically. -/
theorem C1_amended_abort_atomicity_witness :
    (findVoter stC1w.voters 1 = some voterC1w ∧ (11 : Nat) ∈ [11] ∧
      (activeAt stC1w 11 = none ∨ activeAt stC1w 11 = some false) ∧
      0 ≤ inverseVoteWeight stC1w voterC1w.staked
        ((List.length [11] : ℕ) : ℝ) VOTE_VARIATION) ∧
    (exceptErr (voteproducer 1000000 7 5 stC1w 1 0 [11]) = true ∧
      (voteproducerTx 1000000 7 5 stC1w 1 0 [11]).1 = stC1w) :=
  ⟨⟨rfl, by simp, Or.inl rfl, by rw [stC1w_weight]; norm_num⟩,
    C1_amended_abort_atomicity 1000000 7 5 stC1w 1 11 [11] voterC1w rfl (by simp)
      (Or.inl rfl) (by rw [stC1w_weight]; norm_num)⟩

/-! ### Claim C8: switching from direct votes to a proxy -/

lemma inverseVoteWeight_zero (st : SysState) (s v : ℝ) :
    inverseVoteWeight st s 0 v = 0 := by
  simp [inverseVoteWeight]

lemma mapUpsert_append (m : List (Nat × ℝ × Bool)) (k : Nat)
    (f : ℝ × Bool → ℝ × Bool) (hgt : ∀ e ∈ m, e.1 < k) :
    mapUpsert m k f = m ++ [(k, f (0, false))] := by
  induction m with
  | nil => rfl
  | cons e rest ih =>
    obtain ⟨a, v⟩ := e
    have ha : a < k := hgt (a, v) (List.mem_cons_self _ _)
    simp only [mapUpsert]
    rw [if_neg (by omega), if_neg (by omega)]
    rw [ih (fun e he => hgt e (List.mem_cons_of_mem _ he))]
    rfl

lemma fold_upsert_sorted (g : ℝ × Bool → ℝ × Bool) :
    ∀ (l : List Nat) (m0 : List (Nat × ℝ × Bool)),
      (∀ e ∈ m0, ∀ p ∈ l, e.1 < p) → List.Pairwise (fun a b => a < b) l →
      l.foldl (fun m q => mapUpsert m q g) m0 =
        m0 ++ l.map (fun p => (p, g (0, false))) := by
  intro l
  induction l with
  | nil =>
    intro m0 _ _
    simp
  | cons q rest ih =>
    intro m0 hord hpw
    rw [List.foldl_cons]
    rw [mapUpsert_append _ _ _ (fun e he => hord e he q (List.mem_cons_self _ _))]
    rw [ih (m0 ++ [(q, g (0, false))]) ?ord (List.Pairwise.sublist (List.sublist_cons_self _ _) hpw)]
    · simp
    case ord =>
      intro e he p hp
      rcases List.mem_append.mp he with h1 | h1
      · exact hord e h1 p (List.mem_cons_of_mem _ hp)
      · have : e = (q, g (0, false)) := by simpa using h1
        rw [this]
        exact (List.pairwise_cons.mp hpw).1 p hp

lemma applyDeltas_allOld (voting : Bool) (δ : ℝ) :
    ∀ (ps : List Nat) (st : SysState), ps.Nodup →
      ∃ st', applyDeltas voting st (ps.map (fun p => (p, (δ, false)))) = Except.ok st' ∧
        st'.voters = st.voters ∧
        (∀ q, q ∉ ps → findProducer st'.producers q = findProducer st.producers q) ∧
        (∀ q Q, q ∈ ps → findProducer st.producers q = some Q →
          findProducer st'.producers q =
            some { Q with total_votes :=
              if Q.total_votes + δ < 0 then 0 else Q.total_votes + δ }) := by
  intro ps
  induction ps with
  | nil =>
    intro st _
    exact ⟨st, rfl, rfl, fun q _ => rfl, fun q Q hq => absurd hq (List.not_mem_nil q)⟩
  | cons p rest ih =>
    intro st hnd
    have hpnotin : p ∉ rest := (List.nodup_cons.mp hnd).1
    have hndrest : rest.Nodup := (List.nodup_cons.mp hnd).2
    simp only [List.map_cons, applyDeltas]
    cases hf : findProducer st.producers p with
    | none =>
      obtain ⟨st', hrec, hv, hfr, heff⟩ := ih st hndrest
      refine ⟨st', ?_, hv, ?_, ?_⟩
      · simp only [hf]
        rw [if_neg (by simp)]
        exact hrec
      · intro q hq
        exact hfr q (fun hc => hq (List.mem_cons_of_mem _ hc))
      · intro q Q hq hQ
        rcases List.mem_cons.mp hq with h1 | h1
        · subst h1
          rw [hf] at hQ
          cases hQ
        · exact heff q Q h1 hQ
    | some P0 =>
      set st2 : SysState :=
        { updProducer st p (fun q => { q with total_votes :=
            if P0.total_votes + δ < 0 then 0 else P0.total_votes + δ }) with
          gstate := { (updProducer st p (fun q => { q with total_votes :=
            if P0.total_votes + δ < 0 then 0 else P0.total_votes + δ })).gstate with
            total_producer_vote_weight :=
              (updProducer st p (fun q => { q with total_votes :=
                if P0.total_votes + δ < 0 then 0 else P0.total_votes + δ
                })).gstate.total_producer_vote_weight + δ } } with hst2
      obtain ⟨st', hrec, hv, hfr, heff⟩ := ih st2 hndrest
      have hst2v : st2.voters = st.voters := rfl
      have hst2find : ∀ q, q ≠ p →
          findProducer st2.producers q = findProducer st.producers q := by
        intro q hq
        exact findProducer_setProducer_ne st.producers p q
          (fun qq => { qq with total_votes :=
            if P0.total_votes + δ < 0 then 0 else P0.total_votes + δ })
          (fun pp => rfl) hq
      have hst2findp : findProducer st2.producers p =
          some { P0 with total_votes :=
            if P0.total_votes + δ < 0 then 0 else P0.total_votes + δ } := by
        exact (findProducer_setProducer_self st.producers p
          (fun qq => { qq with total_votes :=
            if P0.total_votes + δ < 0 then 0 else P0.total_votes + δ })
          (fun pp => rfl)).trans (by rw [hf]; try rfl)
      refine ⟨st', ?_, hv.trans hst2v, ?_, ?_⟩
      · simp only [hf]
        rw [if_neg (by simp)]
        exact hrec
      · intro q hq
        have hqp : q ≠ p := fun hc => hq (hc ▸ List.mem_cons_self _ _)
        have hqrest : q ∉ rest := fun hc => hq (List.mem_cons_of_mem _ hc)
        exact (hfr q hqrest).trans (hst2find q hqp)
      · intro q Q hq hQ
        rcases List.mem_cons.mp hq with h1 | h1
        · subst h1
          have hQP0 : Q = P0 := Option.some.inj (hQ.symm.trans hf)
          subst hQP0
          exact (hfr q hpnotin).trans hst2findp
        · have hqp : q ≠ p := fun hc => hpnotin (hc ▸ h1)
          exact heff q Q h1 ((hst2find q hqp).trans hQ)

lemma direct_to_proxy_switch (threshold : ℝ) (now fuel : Nat) (st : SysState)
    (vn P : Nat) (V PX : VoterInfo)
    (hV : findVoter st.voters vn = some V)
    (hlvw : 0 < V.last_vote_weight)
    (hpx : V.proxy = 0)
    (hVnp : V.is_proxy = false)
    (hsorted : List.Pairwise (fun a b => a < b) V.producers)
    (hP : findVoter st.voters P = some PX)
    (hPproxy : PX.is_proxy = true)
    (hPlvw : PX.last_vote_weight ≤ 0)
    (hvnP : vn ≠ P)
    (hP0 : P ≠ 0) :
    ∃ st', voteproducer threshold now fuel st vn P [] = Except.ok st' ∧
      (findVoter st'.voters P).map VoterInfo.proxied_vote_weight =
        some (PX.proxied_vote_weight + V.staked) ∧
      (∀ q Q, q ∈ V.producers → findProducer st.producers q = some Q →
        (findProducer st'.producers q).map ProducerInfo.total_votes =
          some (if Q.total_votes + (0 - V.last_vote_weight) < 0 then 0
            else Q.total_votes + (0 - V.last_vote_weight))) := by
  have hact : activation_step threshold now st V P 0 true = Except.ok st := by
    simp only [activation_step]
    rw [if_neg (fun hc => absurd hc.1 (not_le.mpr hlvw)),
      if_neg (fun hc => absurd hc.1 (not_le.mpr hlvw)),
      if_neg (fun hc => hP0 hc.2.1)]
  have hold : old_vote_step fuel st V =
      Except.ok (st, V.producers.map
        (fun p => (p, ((0:ℝ) - V.last_vote_weight, false)))) := by
    simp only [old_vote_step]
    rw [if_pos hlvw, if_neg (by simp [hpx])]
    rw [fold_upsert_sorted _ _ _ (by simp) hsorted]
    simp
  have hnewc : new_choice_step fuel st
      (V.producers.map (fun p => (p, ((0:ℝ) - V.last_vote_weight, false))))
      V vn P [] true 0 =
      Except.ok (updVoter st P (fun v =>
        { v with proxied_vote_weight := v.proxied_vote_weight + V.staked }),
        V.producers.map (fun p => (p, ((0:ℝ) - V.last_vote_weight, false)))) := by
    simp only [new_choice_step]
    rw [if_pos hP0]
    simp only [hP]
    rw [if_neg (fun hc => by simp [hPproxy] at hc)]
    simp only [if_true]
    rw [if_neg (not_lt.mpr hPlvw)]
  set st1 : SysState := updVoter st P (fun v =>
    { v with proxied_vote_weight := v.proxied_vote_weight + V.staked }) with hst1
  obtain ⟨st'', hA2, hvtr, hframe, heffect⟩ :=
    applyDeltas_allOld true (0 - V.last_vote_weight) V.producers st1
      (hsorted.imp (fun h => Nat.ne_of_lt h))
  have hrun : voteproducer threshold now fuel st vn P [] =
      Except.ok (finalize_voter st'' vn P [] 0) := by
    simp only [voteproducer, update_votes, List.length_nil, Nat.cast_zero,
      inverseVoteWeight_zero]
    rw [if_neg (by simp), if_neg (fun hc => hvnP hc.2), if_neg (fun hc => hP0 hc.1),
      if_neg (fun hc => hP0 hc.1)]
    simp only [hV]
    rw [if_neg (fun hc => by simp [hVnp] at hc)]
    rw [if_pos hP0]
    simp only [hP, Option.map_some, Option.map_some']
    simp only [hact]
    simp only [hold]
    simp only [hnewc]
    simp only [hA2]
  refine ⟨finalize_voter st'' vn P [] 0, hrun, ?_, ?_⟩
  · show (findVoter (setVoter st''.voters vn _) P).map _ = _
    rw [findVoter_setVoter_ne st''.voters vn P
      (fun av => { av with last_vote_weight := 0, producers := [], proxy := P })
      (fun v => rfl) (Ne.symm hvnP)]
    rw [hvtr]
    show (findVoter (setVoter st.voters P _) P).map _ = _
    rw [findVoter_setVoter_self st.voters P
      (fun v => { v with proxied_vote_weight := v.proxied_vote_weight + V.staked })
      (fun v => rfl), hP]
    rfl
  · intro q Q hqmem hQ
    have hq1 : findProducer st1.producers q = some Q := hQ
    have := heffect q Q hqmem hq1
    show (findProducer st''.producers q).map _ = _
    rw [this]
    rfl

/-- The voter who previously voted directly for producer 7 with weight 50. -/
def voterC8 : VoterInfo :=
  { owner := 1, staked := 100, proxy := 0, is_proxy := false,
    last_vote_weight := 50, proxied_vote_weight := 0, producers := [7] }

/-- The registered proxy the voter switches to; it has not voted itself. -/
def proxyC8 : VoterInfo :=
  { owner := 2, staked := 0, proxy := 0, is_proxy := true,
    last_vote_weight := 0, proxied_vote_weight := 3, producers := [] }

/-- Producer 7 holds total 20, less than the voter's previous weight 50. -/
def prodC8 : ProducerInfo :=
  { owner := 7, total_votes := 20, producer_key := 5, is_active := true }

/-- State for the C8 counterexample. -/
def stC8 : SysState :=
  { voters := [voterC8, proxyC8], producers := [prodC8], gstate := gstate0 }

/-- Counterexample to claim C8: switching voter 1 (previous weight 50,
slate [7]) to proxy 2 leaves producer 7 at `max(0, 20 - 50) = 0`; its
total was *not* reduced by exactly the voter's `last_vote_weight` 50,
which would give `20 - 50 = -30 ≠ 0` — the delta application clamps at
zero (line 281). -/
theorem C8_counterexample :
    (voteproducerTx 1000000 7 5 stC8 1 2 []).2 = none ∧
    (findProducer (voteproducerTx 1000000 7 5 stC8 1 2 []).1.producers 7).map
      ProducerInfo.total_votes = some 0 ∧
    (0 : ℝ) ≠ 20 - 50 := by
  obtain ⟨st', hok, hprx, heff⟩ :=
    direct_to_proxy_switch 1000000 7 5 stC8 1 2 voterC8 proxyC8 rfl
      (by norm_num [voterC8]) rfl rfl (by simp [voterC8])
      rfl rfl (by norm_num [proxyC8]) (by norm_num) (by norm_num)
  have h7 := heff 7 prodC8 (by simp [voterC8]) rfl
  have h7' : (findProducer st'.producers 7).map ProducerInfo.total_votes =
      some 0 := by
    rw [h7]
    have : prodC8.total_votes + (0 - voterC8.last_vote_weight) < 0 := by
      norm_num [prodC8, voterC8]
    rw [if_pos this]
    try rfl
  refine ⟨?_, ?_, by norm_num⟩
  · simp only [voteproducerTx]
    rw [hok]
  · simp only [voteproducerTx]
    rw [hok]
    exact h7'

/-- Claim C8 (amended): for a voter that previously voted directly
(`last_vote_weight > 0`, no proxy) and now names a registered proxy that
has not itself voted with an empty slate, every producer in the previous
slate has its `total_votes` set to `max(0, old - last_vote_weight)` — an
exact reduction by `last_vote_weight` only when no clamping occurs — and
the proxy's `proxied_vote_weight` is increased by exactly `voter.staked`,
once.  (When the proxy has itself already voted, propagation additionally
overwrites the totals of the proxy's own slate before the deltas are
applied; that path is outside this statement.) -/
theorem C8_amended_direct_to_proxy (threshold : ℝ) (now fuel : Nat) (st : SysState)
    (vn P : Nat) (V PX : VoterInfo)
    (hV : findVoter st.voters vn = some V)
    (hlvw : 0 < V.last_vote_weight)
    (hpx : V.proxy = 0)
    (hVnp : V.is_proxy = false)
    (hsorted : List.Pairwise (fun a b => a < b) V.producers)
    (hP : findVoter st.voters P = some PX)
    (hPproxy : PX.is_proxy = true)
    (hPlvw : PX.last_vote_weight ≤ 0)
    (hvnP : vn ≠ P)
    (hP0 : P ≠ 0) :
    ∃ st', voteproducer threshold now fuel st vn P [] = Except.ok st' ∧
      (findVoter st'.voters P).map VoterInfo.proxied_vote_weight =
        some (PX.proxied_vote_weight + V.staked) ∧
      (∀ q Q, q ∈ V.producers → findProducer st.producers q = some Q →
        (findProducer st'.producers q).map ProducerInfo.total_votes =
          some (if Q.total_votes + (0 - V.last_vote_weight) < 0 then 0
            else Q.total_votes + (0 - V.last_vote_weight))) :=
  direct_to_proxy_switch threshold now fuel st vn P V PX hV hlvw hpx hVnp
    hsorted hP hPproxy hPlvw hvnP hP0

/-- State for the C8 witness: producer 7 holds 80 ≥ 50, so the reduction
is exact. -/
def stC8w : SysState :=
  { voters := [voterC8, proxyC8],
    producers := [{ owner := 7, total_votes := 80, producer_key := 5,
                    is_active := true }],
    gstate := gstate0 }

/-- Witness for the amended C8 at a concrete state. -/
theorem C8_amended_direct_to_proxy_witness :
    (findVoter stC8w.voters 1 = some voterC8 ∧ 0 < voterC8.last_vote_weight ∧
      voterC8.proxy = 0 ∧ voterC8.is_proxy = false ∧
      List.Pairwise (fun a b => a < b) voterC8.producers ∧
      findVoter stC8w.voters 2 = some proxyC8 ∧ proxyC8.is_proxy = true ∧
      proxyC8.last_vote_weight ≤ 0 ∧ (1 : Nat) ≠ 2 ∧ (2 : Nat) ≠ 0) ∧
    (∃ st', voteproducer 1000000 7 5 stC8w 1 2 [] = Except.ok st' ∧
      (findVoter st'.voters 2).map VoterInfo.proxied_vote_weight =
        some (proxyC8.proxied_vote_weight + voterC8.staked) ∧
      (∀ q Q, q ∈ voterC8.producers → findProducer stC8w.producers q = some Q →
        (findProducer st'.producers q).map ProducerInfo.total_votes =
          some (if Q.total_votes + (0 - voterC8.last_vote_weight) < 0 then 0
            else Q.total_votes + (0 - voterC8.last_vote_weight)))) :=
  ⟨⟨rfl, by norm_num [voterC8], rfl, rfl, by simp [voterC8], rfl, rfl,
      by norm_num [proxyC8], by norm_num, by norm_num⟩,
    C8_amended_direct_to_proxy 1000000 7 5 stC8w 1 2 voterC8 proxyC8 rfl
      (by norm_num [voterC8]) rfl rfl (by simp [voterC8]) rfl rfl
      (by norm_num [proxyC8]) (by norm_num) (by norm_num)⟩
